import Mathlib

/-!
# YMeRo plugin transport: simulation-side sender and post-processing receiver

A shallow embedding of `src/plugins/interface.cpp` and
`src/plugins/dump_particles.cpp`.

* Member functions become functions on a record of the object's fields.
* Every call into MPI, the logger, the file system or XDMF is recorded, in
  program order, in a trace kept next to the fields.  `info`, `debug`,
  `debug2` and `debug3` only print and are left out.
* The two request handles `sizeReq` and `dataReq` are the state `Requests`,
  advanced by the recorded actions one at a time.
* C++ `int` and `size_t` values are integers and naturals without wrap-around;
  `float` values are only stored and copied and are kept as bit patterns.
-/

namespace YMeRo

/-! ## Plain data -/

/-- A C++ `float`, identified by its bit pattern: the plugins only move
floats around, they never compute with them. -/
structure float where
  bits : Nat
deriving DecidableEq, Repr

/-- The value `0.0f` with which `std::vector<float>::resize` fills new elements. -/
def float.zero : float := ⟨0⟩

/-- The CUDA `float3`. -/
structure float3 where
  x : float
  y : float
  z : float
deriving DecidableEq, Repr

/-- The fields of `Particle` that the plugins read: position `r`, velocity `u`. -/
structure Particle where
  r : float3
  u : float3
deriving DecidableEq, Repr

/-- A `std::vector<char>`. -/
abbrev Bytes := List UInt8

/-- The enumerators `Scalar`, `Vector`, `Tensor6`, used under the same names by
the sender (`ChannelType`) and by the receiver (`XDMF::Channel::Type`). -/
inductive ChannelType where
  | Scalar
  | Vector
  | Tensor6
deriving DecidableEq, Repr

/-! ## Recorded actions of the simulation side -/

/-- The two `MPI_Request` members of `SimulationPlugin`. -/
inductive Slot where
  | sizeReq
  | dataReq
deriving DecidableEq, Repr

/-- The memory a non-blocking send reads from until it completes. -/
inductive Loc where
  | localSendSize
  | sendBuffer
deriving DecidableEq, Repr

/-- What a send carries: the `int` of the size announcement or a byte block. -/
inductive Payload where
  | int (v : Int)
  | bytes (b : Bytes)
deriving DecidableEq, Repr

/-- The buffers `beforeForces` copies into. -/
inductive CopyDst where
  | particles
  | channelData (i : Nat)
deriving DecidableEq, Repr

/-- One action of the simulation-side plugin. -/
inductive Event where
  /-- The call `dst.genericCopy(src, stream)`. -/
  | copy (dst : CopyDst)
  /-- A store to `localSendSize` or into `sendBuffer`. -/
  | write (loc : Loc)
  /-- The call `MPI_Wait(&slot, MPI_STATUS_IGNORE)`. -/
  | wait (slot : Slot)
  /-- The assignment `slot = MPI_REQUEST_NULL`. -/
  | reset (slot : Slot)
  /-- The call `MPI_Issend(reads, count, _, rank, tag, interComm, &slot)`. -/
  | issend (slot : Slot) (reads : Loc) (count : Int) (tag : Int) (payload : Payload)
deriving DecidableEq, Repr

/-! ## The request handles as state -/

/-- An `MPI_Request`: `none` is `MPI_REQUEST_NULL`; `some (k, loc)` is the handle
of a send that belongs to logical message number `k`, reads `loc`, and has not
been waited for. -/
abbrev MPI_Request := Option (Nat × Loc)

/-- State of the two request handles of one `SimulationPlugin`. -/
structure Requests where
  /-- The member `sizeReq`. -/
  sizeReq : MPI_Request
  /-- The member `dataReq`. -/
  dataReq : MPI_Request
  /-- Sends that are still outstanding but whose handle was overwritten or
  reset before any `MPI_Wait` on it. -/
  lost : List (Nat × Loc)
  /-- Number of size sends issued so far. -/
  sizeIssued : Nat
  /-- Number of data sends issued so far. -/
  dataIssued : Nat
deriving DecidableEq, Repr

/-- The constructor of `SimulationPlugin` sets both handles to `MPI_REQUEST_NULL`. -/
def Requests.init : Requests :=
  { sizeReq := none, dataReq := none, lost := [], sizeIssued := 0, dataIssued := 0 }

/-- Read a handle. -/
def Requests.get (r : Requests) : Slot → MPI_Request
  | .sizeReq => r.sizeReq
  | .dataReq => r.dataReq

/-- Overwrite a handle. -/
def Requests.put (r : Requests) (slot : Slot) (v : MPI_Request) : Requests :=
  match slot with
  | .sizeReq => { r with sizeReq := v }
  | .dataReq => { r with dataReq := v }

/-- Number of the logical message the next send through `slot` belongs to: the
k-th size send and the k-th data send make up message `k`. -/
def Requests.nextMessage (r : Requests) : Slot → Nat
  | .sizeReq => r.sizeIssued
  | .dataReq => r.dataIssued

/-- All sends that were issued and not yet completed by an `MPI_Wait`. -/
def Requests.outstanding (r : Requests) : List (Nat × Loc) :=
  r.sizeReq.toList ++ r.dataReq.toList ++ r.lost

/-- Effect of one action on the handles.  `MPI_Wait` completes the send behind
the handle and nulls it (on `MPI_REQUEST_NULL` it returns at once); overwriting
a live handle leaves its send outstanding. -/
def Requests.step (r : Requests) : Event → Requests
  | .wait slot => r.put slot none
  | .reset slot => { r.put slot none with lost := (r.get slot).toList ++ r.lost }
  | .issend slot reads _ _ _ =>
      let r1 : Requests := { r.put slot (some (r.nextMessage slot, reads)) with
                             lost := (r.get slot).toList ++ r.lost }
      match slot with
      | .sizeReq => { r1 with sizeIssued := r.sizeIssued + 1 }
      | .dataReq => { r1 with dataIssued := r.dataIssued + 1 }
  | _ => r

/-- The handles after a whole trace. -/
def Requests.replay (r : Requests) (t : List Event) : Requests :=
  t.foldl Requests.step r

/-- No two of the outstanding sends belong to different logical messages. -/
def Requests.atMostOneMessage (r : Requests) : Bool :=
  r.outstanding.all fun a => r.outstanding.all fun b => a.1 == b.1

/-- A send may be issued only through a null handle and only while every
outstanding send belongs to the message this send is part of. -/
def Requests.mayDo (r : Requests) : Event → Bool
  | .issend slot _ _ _ _ =>
      (r.get slot).isNone && r.outstanding.all fun a => a.1 == r.nextMessage slot
  | _ => true

/-- Along the trace, at every point at most one logical message is in flight
and no send is issued while a send of an earlier message is pending. -/
def flowControlled : Requests → List Event → Bool
  | r, [] => r.atMostOneMessage
  | r, e :: es => r.atMostOneMessage && r.mayDo e && flowControlled (r.step e) es

/-- Along the trace, no store hits memory that an outstanding send still reads. -/
def writesAfterWait : Requests → List Event → Bool
  | _, [] => true
  | r, e :: es =>
      (match e with
       | .write loc => r.outstanding.all fun a => a.2 != loc
       | _ => true) && writesAfterWait (r.step e) es

/-! ## `SimulationPlugin` (interface.cpp) -/

/-- The members of `SimulationPlugin` used by the transport, `tag` being the
value of `_tag()`, together with the trace of its actions. -/
structure SimulationPlugin where
  name : String
  tag : Int
  currentTime : float
  currentTimeStep : Int
  localSendSize : Int
  sendBuffer : Bytes
  trace : List Event
deriving DecidableEq, Repr

/-- See `SimulationPlugin::setTime`. -/
def SimulationPlugin.setTime (p : SimulationPlugin) (t : float) (tstep : Int) : SimulationPlugin :=
  { p with currentTime := t, currentTimeStep := tstep }

/-- See `SimulationPlugin::waitPrevSend`. -/
def SimulationPlugin.waitPrevSend (p : SimulationPlugin) : SimulationPlugin :=
  { p with trace := p.trace ++
      [.wait .sizeReq, .wait .dataReq, .reset .sizeReq, .reset .dataReq] }

/-- See `SimulationPlugin::finalize`. -/
def SimulationPlugin.finalize (p : SimulationPlugin) : SimulationPlugin :=
  { p with trace := p.trace ++ [.wait .sizeReq, .wait .dataReq] }

/-- See `SimulationPlugin::send(const void* data, int sizeInBytes)`; `src` names
the memory `data` points to and `data` is its content at the time of the call. -/
def SimulationPlugin.send (p : SimulationPlugin) (src : Loc) (data : Bytes)
    (sizeInBytes : Int) : SimulationPlugin :=
  let p1 : SimulationPlugin :=
    { p with localSendSize := sizeInBytes, trace := p.trace ++ [.write .localSendSize] }
  let p2 := p1.waitPrevSend
  { p2 with trace := p2.trace ++
      [ .issend .sizeReq .localSendSize 1 (2 * p2.tag) (.int p2.localSendSize),
        .issend .dataReq src sizeInBytes (2 * p2.tag + 1) (.bytes data) ] }

/-- See `SimulationPlugin::send(const std::vector<char>& data)`. -/
def SimulationPlugin.sendVector (p : SimulationPlugin) (src : Loc) (data : Bytes) :
    SimulationPlugin :=
  p.send src data data.length

/-- A sequence of `send` calls, one per buffer. -/
def SimulationPlugin.sendAll (p : SimulationPlugin) (src : Loc) (msgs : List Bytes) :
    SimulationPlugin :=
  msgs.foldl (fun q m => q.sendVector src m) p

/-! ## Collaborators that are not part of the plugin sources -/

/-- The functions the plugins call but do not define: `SimpleSerializer`, the
domain's coordinate map, and the path helpers.  They are parameters of the
model. -/
structure Collaborators where
  /-- The call `SimpleSerializer::serialize(buf, sizes, names)`, as the new content of `buf`. -/
  serializeHandshake : List Int → List String → Bytes
  /-- The call `SimpleSerializer::deserialize(data, sizes, names)`. -/
  deserializeHandshake : Bytes → List Int × List String
  /-- The call `SimpleSerializer::serialize(buf, time, particles, channelData)`. -/
  serializeDump : float → List Particle → List Bytes → Bytes
  /-- The call `SimpleSerializer::deserialize(data, t, particles, channelData)`. -/
  deserializeDump : Bytes → float × List Particle × List Bytes
  /-- The call `simulation->domain.local2global(r)`. -/
  local2global : float3 → float3
  /-- The helper `parentPath`. -/
  parentPath : String → String
  /-- The helper `getStrZeroPadded`. -/
  getStrZeroPadded : Nat → Nat → String

/-- The local part of the particle vector the sender observes: `coosvels` and,
per channel name, the container `extraPerParticle.getGenericData(name)`. -/
structure ParticleVector where
  coosvels : List Particle
  extraPerParticle : String → Bytes

/-! ## `ParticleSenderPlugin` (dump_particles.cpp) -/

/-- The members of `ParticleSenderPlugin`. -/
structure ParticleSenderPlugin extends SimulationPlugin where
  pvName : String
  dumpEvery : Int
  channelNames : List String
  channelTypes : List ChannelType
  particles : List Particle
  channelData : List Bytes
deriving DecidableEq, Repr

/-- The constructor: `channelData` gets one (empty) entry per channel name, both
request handles start as `MPI_REQUEST_NULL` and nothing has been done yet.  The
clock fields and `localSendSize` have no initialiser in the constructor; they
are written before they are read and start here as zero. -/
def ParticleSenderPlugin.new (name pvName : String) (dumpEvery : Int)
    (channelNames : List String) (channelTypes : List ChannelType) (tag : Int) :
    ParticleSenderPlugin :=
  { name := name, tag := tag, currentTime := float.zero, currentTimeStep := 0,
    localSendSize := 0, sendBuffer := [], trace := [],
    pvName := pvName, dumpEvery := dumpEvery,
    channelNames := channelNames, channelTypes := channelTypes,
    particles := [], channelData := List.replicate channelNames.length [] }

/-- See `SimulationPlugin::setTime`, inherited by the sender. -/
def ParticleSenderPlugin.setTime (s : ParticleSenderPlugin) (t : float) (tstep : Int) :
    ParticleSenderPlugin :=
  { s with toSimulationPlugin := s.toSimulationPlugin.setTime t tstep }

/-- The `switch` of `ParticleSenderPlugin::handshake`. -/
def ChannelType.size : ChannelType → Int
  | .Scalar => 1
  | .Vector => 3
  | .Tensor6 => 6

/-- The loop of `ParticleSenderPlugin::handshake`: one `push_back` per channel type. -/
def ParticleSenderPlugin.handshakeSizes (s : ParticleSenderPlugin) : List Int :=
  s.channelTypes.foldl (fun sizes t => sizes ++ [t.size]) []

/-- The two lists `ParticleSenderPlugin::handshake` hands to the serializer. -/
def ParticleSenderPlugin.handshakeLists (s : ParticleSenderPlugin) : List Int × List String :=
  (s.handshakeSizes, s.channelNames)

/-- See `ParticleSenderPlugin::handshake`. -/
def ParticleSenderPlugin.handshake (env : Collaborators) (s : ParticleSenderPlugin) :
    ParticleSenderPlugin :=
  let lists := s.handshakeLists
  let p1 := s.toSimulationPlugin.waitPrevSend
  let p2 : SimulationPlugin :=
    { p1 with sendBuffer := env.serializeHandshake lists.1 lists.2,
              trace := p1.trace ++ [.write .sendBuffer] }
  { s with toSimulationPlugin := p2.sendVector .sendBuffer p2.sendBuffer }

/-- The guard shared by `beforeForces` and `serializeAndSend`:
`currentTimeStep % dumpEvery != 0 || currentTimeStep == 0`, with the truncating
remainder of C++. -/
def ParticleSenderPlugin.skips (s : ParticleSenderPlugin) : Bool :=
  decide (Int.tmod s.currentTimeStep s.dumpEvery ≠ 0) || decide (s.currentTimeStep = 0)

/-- One round of the copy loop of `beforeForces`: `channelData[i]` receives the
container named `channelNames[i]`. -/
def ParticleSenderPlugin.copyChannel (pv : ParticleVector) (s : ParticleSenderPlugin)
    (i : Nat) : ParticleSenderPlugin :=
  let name := s.channelNames.getD i ""
  { s with channelData := s.channelData.set i (pv.extraPerParticle name),
           trace := s.trace ++ [.copy (.channelData i)] }

/-- See `ParticleSenderPlugin::beforeForces`; `pv` is the content of
`pv->local()` at the time of the call. -/
def ParticleSenderPlugin.beforeForces (pv : ParticleVector) (s : ParticleSenderPlugin) :
    ParticleSenderPlugin :=
  if s.skips then s
  else
    let s1 : ParticleSenderPlugin :=
      { s with particles := pv.coosvels, trace := s.trace ++ [.copy .particles] }
    (List.range s1.channelNames.length).foldl (ParticleSenderPlugin.copyChannel pv) s1

/-- See `ParticleSenderPlugin::serializeAndSend`. -/
def ParticleSenderPlugin.serializeAndSend (env : Collaborators) (s : ParticleSenderPlugin) :
    ParticleSenderPlugin :=
  if s.skips then s
  else
    let particles := s.particles.map fun p => { p with r := env.local2global p.r }
    let p1 : SimulationPlugin :=
      { s.toSimulationPlugin with
          sendBuffer := env.serializeDump s.currentTime particles s.channelData,
          trace := s.trace ++ [.write .sendBuffer] }
    { s with particles := particles,
             toSimulationPlugin := p1.sendVector .sendBuffer p1.sendBuffer }

/-- The data sends (tag, byte count, bytes) recorded in a trace, in order. -/
def dataSends : List Event → List (Int × Int × Bytes)
  | [] => []
  | .issend .dataReq _ count tag (.bytes b) :: es => (tag, count, b) :: dataSends es
  | _ :: es => dataSends es

/-- The size announcements (tag, announced value) recorded in a trace, in order. -/
def sizeSends : List Event → List (Int × Int)
  | [] => []
  | .issend .sizeReq _ _ tag (.int v) :: es => (tag, v) :: sizeSends es
  | _ :: es => sizeSends es

/-- The `genericCopy` calls recorded in a trace, in order. -/
def copies : List Event → List CopyDst
  | [] => []
  | .copy dst :: es => dst :: copies es
  | _ :: es => copies es

/-! ## `PostprocessPlugin` (interface.cpp) -/

/-- Where the `data` pointer of a receiver channel points: nowhere, to the
plugin's `velocities`, or to its `channelData[i]`. -/
inductive DataPtr where
  | null
  | velocities
  | channelData (i : Nat)
deriving DecidableEq, Repr

/-- The object built by `XDMF::Channel(name, data, type)`. -/
structure XDMF.Channel where
  name : String
  data : DataPtr
  type : ChannelType
deriving DecidableEq, Repr

/-- One action of the post-processing plugin. -/
inductive PostEvent where
  /-- The call `MPI_Irecv(&size, 1, MPI_INT, rank, tag, interComm, &req)`. -/
  | irecv (tag : Int)
  /-- The call `MPI_Recv(data.data(), size, MPI_BYTE, rank, tag, interComm, &status)`. -/
  | recv (size : Nat) (tag : Int)
  /-- The logger call `error(...)` of `recv`, with the announced and the received count. -/
  | error (plugin : String) (size : Nat) (count : Nat)
  /-- The call `createFoldersCollective(comm, path)`. -/
  | createFolders (path : String)
  /-- The call `XDMF::write(fname, &grid, channels, t, comm)`; `t` is `none` when
  the variable passed holds no determinate value. -/
  | xdmfWrite (fname : String) (positions : List float) (channels : List XDMF.Channel)
      (t : Option float)
deriving DecidableEq, Repr

/-- The ways the receiver stops instead of returning. -/
inductive Fatal where
  /-- The run was ended by `die(...)`, called with the plugin name, the
  offending size and the channel name. -/
  | die (plugin : String) (size : Int) (channel : String)
  /-- An unchecked `operator[]` was applied past the end of a vector. -/
  | outOfRange (index : Nat)
deriving DecidableEq, Repr

/-- The members of `PostprocessPlugin`, `tag` being the value of `_tag()`,
together with the trace of its actions. -/
structure PostprocessPlugin where
  name : String
  tag : Int
  size : Nat
  data : Bytes
  log : List PostEvent
deriving DecidableEq, Repr

/-- Modelled from the spec: the logger call `die(...)` (core/logger.h is not
among the sources) reports a configuration error and ends the run. -/
def die {α : Type} (plugin : String) (size : Int) (channel : String) : Except Fatal α :=
  .error (.die plugin size channel)

/-- Modelled from the spec: the logger call `error(...)` (core/logger.h is not
among the sources) reports the mismatch and returns to its caller. -/
def error (log : List PostEvent) (plugin : String) (size count : Nat) : List PostEvent :=
  log ++ [.error plugin size count]

/-- What the simulation side delivers for one logical message: the value that
arrives in `size`, the byte count `MPI_Get_count` reports for the data
message, and the bytes `MPI_Recv` stores. -/
structure Incoming where
  announced : Nat
  count : Nat
  contents : Bytes
deriving DecidableEq, Repr

/-- See `std::vector::resize(n)`: keep the first `n` elements, fill up with `fill`. -/
def resize {α : Type} (xs : List α) (n : Nat) (fill : α) : List α :=
  xs.take n ++ List.replicate (n - xs.length) fill

/-- The bytes of `buf` after `contents` was stored at its start. -/
def overwrite (buf contents : Bytes) : Bytes :=
  contents.take buf.length ++ buf.drop contents.length

/-- See `PostprocessPlugin::waitData`: post the receive of the size announcement. -/
def PostprocessPlugin.waitData (p : PostprocessPlugin) : PostprocessPlugin :=
  { p with log := p.log ++ [.irecv (2 * p.tag)] }

/-- The `MPI_Wait` on the request returned by `waitData`: the announced value is
now in `size`. -/
def PostprocessPlugin.awaitSize (p : PostprocessPlugin) (announced : Nat) : PostprocessPlugin :=
  { p with size := announced }

/-- See `PostprocessPlugin::recv`; `count` and `contents` are what MPI reports
and stores for the data message. -/
def PostprocessPlugin.recv (p : PostprocessPlugin) (count : Nat) (contents : Bytes) :
    PostprocessPlugin :=
  let data := overwrite (resize p.data p.size 0) contents
  let log := p.log ++ [.recv p.size (2 * p.tag + 1)]
  { p with data := data,
           log := if count ≠ p.size then error log p.name p.size count else log }

/-- The sequence `waitData(); MPI_Wait(&req); recv();` for one incoming message. -/
def PostprocessPlugin.receive (p : PostprocessPlugin) (inc : Incoming) : PostprocessPlugin :=
  (p.waitData.awaitSize inc.announced).recv inc.count inc.contents

/-- The `error(...)` reports recorded in a log. -/
def errorsOf : List PostEvent → List PostEvent
  | [] => []
  | .error n s c :: es => .error n s c :: errorsOf es
  | _ :: es => errorsOf es

/-! ## `ParticleDumperPlugin` (dump_particles.cpp) -/

/-- The members of `ParticleDumperPlugin`. -/
structure ParticleDumperPlugin extends PostprocessPlugin where
  path : String
  channels : List XDMF.Channel
  particles : List Particle
  channelData : List Bytes
  positions : List float
  velocities : List float
  timeStamp : Nat
  zeroPadding : Nat
deriving DecidableEq, Repr

/-- The constructor. -/
def ParticleDumperPlugin.new (name path : String) (tag : Int) (zeroPadding : Nat) :
    ParticleDumperPlugin :=
  { name := name, tag := tag, size := 0, data := [], log := [],
    path := path, channels := [], particles := [], channelData := [],
    positions := [], velocities := [], timeStamp := 0, zeroPadding := zeroPadding }

/-- The lambda `init_channel` of `handshake`. -/
def init_channel (type : ChannelType) (_sz : Int) (str : String) : XDMF.Channel :=
  { name := str, data := .null, type := type }

/-- The loop of `ParticleDumperPlugin::handshake` from index `i` on, `sizes`
being the entries `sizes[i], sizes[i+1], ...` still to visit. -/
def ParticleDumperPlugin.handshakeLoop (plugin : String) (names : List String) :
    List Int → Nat → String → List XDMF.Channel → Except Fatal (String × List XDMF.Channel)
  | [], _, allNames, channels => .ok (allNames, channels)
  | sz :: rest, i, allNames, channels =>
      match names[i]? with
      | none => .error (.outOfRange i)
      | some nm =>
          let allNames := allNames ++ ", " ++ nm
          if sz = 1 then
            handshakeLoop plugin names rest (i + 1) allNames
              (channels ++ [init_channel .Scalar sz nm])
          else if sz = 3 then
            handshakeLoop plugin names rest (i + 1) allNames
              (channels ++ [init_channel .Vector sz nm])
          else if sz = 6 then
            handshakeLoop plugin names rest (i + 1) allNames
              (channels ++ [init_channel .Tensor6 sz nm])
          else die plugin sz nm

/-- The part of `ParticleDumperPlugin::handshake` after deserialization: the
velocity channel, then the loop over the received sizes. -/
def ParticleDumperPlugin.buildChannels (d : ParticleDumperPlugin) (sizes : List Int)
    (names : List String) : Except Fatal (String × List XDMF.Channel) :=
  ParticleDumperPlugin.handshakeLoop d.name names sizes 0 "velocity"
    (d.channels ++ [init_channel .Vector 3 "velocity"])

/-- See `ParticleDumperPlugin::handshake`. -/
def ParticleDumperPlugin.handshake (env : Collaborators) (d : ParticleDumperPlugin)
    (inc : Incoming) : Except Fatal ParticleDumperPlugin :=
  let p1 := d.toPostprocessPlugin.receive inc
  let lists := env.deserializeHandshake p1.data
  match d.buildChannels lists.1 lists.2 with
  | .error e => .error e
  | .ok (_, channels) =>
      .ok { d with
              toPostprocessPlugin :=
                { p1 with log := p1.log ++ [.createFolders (env.parentPath d.path)] },
              channels := channels }

/-- An assignment `xs[i] = v` that is checked: `none` when `i` is past the end. -/
def store {α : Type} (xs : List α) (i : Nat) (v : α) : Option (List α) :=
  if i < xs.length then some (xs.set i v) else none

/-- One round of the loop of `unpack_particles`. -/
def unpackStep (particles : List Particle) (acc : List float × List float) (i : Nat) :
    Option (List float × List float) := do
  let p ← particles[i]?
  let pos ← store acc.1 (3 * i + 0) p.r.x
  let pos ← store pos (3 * i + 1) p.r.y
  let pos ← store pos (3 * i + 2) p.r.z
  let vel ← store acc.2 (3 * i + 0) p.u.x
  let vel ← store vel (3 * i + 1) p.u.y
  let vel ← store vel (3 * i + 2) p.u.z
  pure (pos, vel)

/-- See `unpack_particles`; the result is the new content of `pos` and `vel`,
or `none` if some index was out of bounds. -/
def unpack_particles (particles : List Particle) (pos vel : List float) :
    Option (List float × List float) :=
  let n := particles.length
  let pos := resize pos (3 * n) float.zero
  let vel := resize vel (3 * n) float.zero
  (List.range n).foldlM (unpackStep particles) (pos, vel)

/-- The assignment `channels[i].data = ptr`, checked. -/
def setData (channels : List XDMF.Channel) (i : Nat) (ptr : DataPtr) :
    Option (List XDMF.Channel) :=
  match channels[i]? with
  | none => none
  | some c => some (channels.set i { c with data := ptr })

/-- See `ParticleDumperPlugin::_recvAndUnpack`.  The second component is the
value the call yields: the body ends without a `return` statement, so the
local `t` is dropped and the caller gets no determinate value (`none`).  The
whole result is `none` if an index was out of bounds. -/
def ParticleDumperPlugin._recvAndUnpack (env : Collaborators) (d : ParticleDumperPlugin) :
    Option (ParticleDumperPlugin × Option float) := do
  let (_t, particles, channelData) := env.deserializeDump d.data
  let (positions, velocities) ← unpack_particles particles d.positions d.velocities
  let channels ← setData d.channels 0 .velocities
  let channels ← (List.range channelData.length).foldlM
    (fun chs i => setData chs (i + 1) (.channelData i)) channels
  pure ({ d with particles := particles, channelData := channelData,
                 positions := positions, velocities := velocities,
                 channels := channels }, none)

/-- See `ParticleDumperPlugin::deserialize`. -/
def ParticleDumperPlugin.deserialize (env : Collaborators) (d : ParticleDumperPlugin) :
    Option ParticleDumperPlugin := do
  let (d1, t) ← d._recvAndUnpack env
  let fname := d1.path ++ env.getStrZeroPadded d1.timeStamp d1.zeroPadding
  pure { d1 with timeStamp := d1.timeStamp + 1,
                 log := d1.log ++ [.xdmfWrite fname d1.positions d1.channels t] }

/-- The time arguments of the `XDMF::write` calls recorded in a log. -/
def writtenTimes : List PostEvent → List (Option float)
  | [] => []
  | .xdmfWrite _ _ _ t :: es => t :: writtenTimes es
  | _ :: es => writtenTimes es

/-! ## The driver -/

/-- Modelled from the spec: the Driver with one registered plugin
(`Simulation::run` is declared in core/simulation.h, its definition is not among
the sources).  It owns the simulation clock; `sentAt` lists the values of
`currentStep` of the steps in which the plugin issued a data send. -/
structure Simulation where
  currentTime : float
  currentStep : Int
  plugin : ParticleSenderPlugin
  pv : ParticleVector
  sentAt : List Int

/-- Modelled from the spec: the state in which `run` starts, with the step
counter at 0. -/
def Simulation.start (plugin : ParticleSenderPlugin) (pv : ParticleVector) : Simulation :=
  { currentTime := float.zero, currentStep := 0, plugin := plugin, pv := pv, sentAt := [] }

/-- Modelled from the spec: one step of `run`, restricted to the phases that
involve the plugin.  The plugin is given the clock, then `beforeForces` runs,
later `serializeAndSend`, and last the clock advances (`advance` adds the time
step to `currentTime`). -/
def Simulation.step (env : Collaborators) (advance : float → float) (sim : Simulation) :
    Simulation :=
  let p0 := sim.plugin.setTime sim.currentTime sim.currentStep
  let p1 := p0.beforeForces sim.pv
  let p2 := p1.serializeAndSend env
  { sim with
      plugin := p2,
      sentAt := if (dataSends p1.trace).length < (dataSends p2.trace).length
                then sim.sentAt ++ [sim.currentStep] else sim.sentAt,
      currentTime := advance sim.currentTime,
      currentStep := sim.currentStep + 1 }

/-- Modelled from the spec: `run(n)` executes `n` steps. -/
def Simulation.run (env : Collaborators) (advance : float → float) : Nat → Simulation → Simulation
  | 0, sim => sim
  | n + 1, sim => Simulation.run env advance n (Simulation.step env advance sim)

/-! ## Concrete inputs -/

/-- A small stand-in for the collaborators, for evaluating the model: a size or
a time is one byte, every channel is called "channel", a dump carries the time
and then one byte per particle, coordinates and paths are left as they are. -/
def Collaborators.sample : Collaborators where
  serializeHandshake sizes _ := sizes.map fun z => UInt8.ofNat z.toNat
  deserializeHandshake b := (b.map fun x => Int.ofNat x.toNat, b.map fun _ => "channel")
  serializeDump t ps _ := UInt8.ofNat t.bits :: ps.map fun _ => 0
  deserializeDump b :=
    (⟨(b.headD 0).toNat⟩, (b.drop 1).map fun _ => ⟨⟨⟨1⟩, ⟨2⟩, ⟨3⟩⟩, ⟨⟨4⟩, ⟨5⟩, ⟨6⟩⟩⟩, [b.drop 1])
  local2global r := r
  parentPath path := path
  getStrZeroPadded _ _ := "00000"

/-- A population of one particle with one extra channel of four bytes. -/
def ParticleVector.sample : ParticleVector where
  coosvels := [⟨⟨⟨1⟩, ⟨2⟩, ⟨3⟩⟩, ⟨⟨4⟩, ⟨5⟩, ⟨6⟩⟩⟩]
  extraPerParticle _ := [0, 0, 128, 63]

/-- A sender for one scalar channel "temperature" that dumps every second step. -/
def ParticleSenderPlugin.sample : ParticleSenderPlugin :=
  ParticleSenderPlugin.new "dump" "cells" 2 ["temperature"] [.Scalar] 7

/-! ## Message tags -/

/-- The tags of all sends recorded in a trace, in order. -/
def sendTags : List Event → List Int
  | [] => []
  | .issend _ _ _ tag _ :: es => tag :: sendTags es
  | _ :: es => sendTags es

/-- The tags of all receives recorded in a log, in order. -/
def recvTags : List PostEvent → List Int
  | [] => []
  | .irecv tag :: es => tag :: recvTags es
  | .recv _ tag :: es => tag :: recvTags es
  | _ :: es => recvTags es


/-- The stand-in collaborators with a deserializer that yields the sizes but no
names. -/
def Collaborators.nameless : Collaborators :=
  { Collaborators.sample with
      deserializeHandshake := fun b => (b.map fun x => Int.ofNat x.toNat, []) }

/-- A sender for one scalar channel called "channel". -/
def ParticleSenderPlugin.sampleChannel : ParticleSenderPlugin :=
  ParticleSenderPlugin.new "dump" "cells" 2 ["channel"] [.Scalar] 7


/-- A stand-in for the clock increment `currentTime += dt`. -/
def advanceSample (t : float) : float := ⟨t.bits + 1⟩


/-- A receiver after its handshake for one scalar channel, holding a received
payload of two bytes whose time is 9. -/
def ParticleDumperPlugin.sample : ParticleDumperPlugin :=
  { ParticleDumperPlugin.new "dump" "out/particles" 7 5 with
      channels := [⟨"velocity", .null, .Vector⟩, ⟨"channel", .null, .Scalar⟩],
      size := 2, data := [9, 0] }

end YMeRo

/-! # Theorems -/

namespace YMeRo

/-! ## Flow control of `send` -/

theorem flowControlled_atMostOne (r : Requests) (t : List Event)
    (h : flowControlled r t = true) : r.atMostOneMessage = true := by
  cases t with
  | nil => simpa [flowControlled] using h
  | cons e es =>
      simp only [flowControlled, Bool.and_eq_true] at h
      exact h.1.1

theorem flowControlled_append (r : Requests) (t1 t2 : List Event) :
    flowControlled r (t1 ++ t2)
      = (flowControlled r t1 && flowControlled (r.replay t1) t2) := by
  induction t1 generalizing r with
  | nil =>
      cases h : flowControlled r t2
      · simp [flowControlled, Requests.replay, h]
      · simp [flowControlled, Requests.replay, h, flowControlled_atMostOne r t2 h]
  | cons e es ih =>
      simp [flowControlled, Requests.replay, ih, Bool.and_assoc]

theorem replay_append (r : Requests) (t1 t2 : List Event) :
    r.replay (t1 ++ t2) = (r.replay t1).replay t2 := by
  simp [Requests.replay, List.foldl_append]

theorem sendVector_trace (p : SimulationPlugin) (src : Loc) (m : Bytes) :
    (p.sendVector src m).trace = p.trace ++
      [ .write .localSendSize, .wait .sizeReq, .wait .dataReq, .reset .sizeReq,
        .reset .dataReq,
        .issend .sizeReq .localSendSize 1 (2 * p.tag) (.int m.length),
        .issend .dataReq src m.length (2 * p.tag + 1) (.bytes m) ] := by
  simp [SimulationPlugin.sendVector, SimulationPlugin.send, SimulationPlugin.waitPrevSend]

theorem sendVector_tag (p : SimulationPlugin) (src : Loc) (m : Bytes) :
    (p.sendVector src m).tag = p.tag := by
  simp [SimulationPlugin.sendVector, SimulationPlugin.send, SimulationPlugin.waitPrevSend]

/-- One `send`, started with no lost handle, at most one message in flight and
as many size sends as data sends issued, keeps the flow-control discipline at
each of its seven actions and ends in a state of the same kind. -/
theorem send_block (r : Requests) (src : Loc) (tag : Int) (m : Bytes)
    (hlost : r.lost = []) (hcount : r.sizeIssued = r.dataIssued)
    (hone : r.atMostOneMessage = true) :
    flowControlled r
        [ .write .localSendSize, .wait .sizeReq, .wait .dataReq, .reset .sizeReq,
          .reset .dataReq,
          .issend .sizeReq .localSendSize 1 (2 * tag) (.int m.length),
          .issend .dataReq src m.length (2 * tag + 1) (.bytes m) ] = true
    ∧ (r.replay
        [ .write .localSendSize, .wait .sizeReq, .wait .dataReq, .reset .sizeReq,
          .reset .dataReq,
          .issend .sizeReq .localSendSize 1 (2 * tag) (.int m.length),
          .issend .dataReq src m.length (2 * tag + 1) (.bytes m) ]).lost = []
    ∧ (r.replay
        [ .write .localSendSize, .wait .sizeReq, .wait .dataReq, .reset .sizeReq,
          .reset .dataReq,
          .issend .sizeReq .localSendSize 1 (2 * tag) (.int m.length),
          .issend .dataReq src m.length (2 * tag + 1) (.bytes m) ]).sizeIssued
      = (r.replay
        [ .write .localSendSize, .wait .sizeReq, .wait .dataReq, .reset .sizeReq,
          .reset .dataReq,
          .issend .sizeReq .localSendSize 1 (2 * tag) (.int m.length),
          .issend .dataReq src m.length (2 * tag + 1) (.bytes m) ]).dataIssued
    ∧ (r.replay
        [ .write .localSendSize, .wait .sizeReq, .wait .dataReq, .reset .sizeReq,
          .reset .dataReq,
          .issend .sizeReq .localSendSize 1 (2 * tag) (.int m.length),
          .issend .dataReq src m.length (2 * tag + 1) (.bytes m) ]).atMostOneMessage = true := by
  obtain ⟨sr, dr, lost, si, di⟩ := r
  simp only at hlost hcount
  subst hlost hcount
  cases sr <;> cases dr <;>
    simp [flowControlled, Requests.replay, Requests.step, Requests.put, Requests.get,
      Requests.mayDo, Requests.atMostOneMessage, Requests.outstanding, Requests.nextMessage]
      at hone ⊢
  exact ⟨hone.1, hone.1.symm⟩

theorem sendAll_flowControlled (src : Loc) (msgs : List Bytes) :
    ∀ (p : SimulationPlugin) (r : Requests),
      flowControlled r p.trace = true →
      (r.replay p.trace).lost = [] →
      (r.replay p.trace).sizeIssued = (r.replay p.trace).dataIssued →
      flowControlled r (p.sendAll src msgs).trace = true := by
  induction msgs with
  | nil => intro p r h _ _; simpa [SimulationPlugin.sendAll] using h
  | cons m ms ih =>
      intro p r h hl hc
      have hone : (r.replay p.trace).atMostOneMessage = true := by
        have := flowControlled_append r p.trace []
        simp only [List.append_nil, h, Bool.true_and, flowControlled] at this
        exact this.symm
      obtain ⟨b1, b2, b3, _⟩ := send_block (r.replay p.trace) src p.tag m hl hc hone
      have step : (p.sendAll src (m :: ms)) = (p.sendVector src m).sendAll src ms := by
        simp [SimulationPlugin.sendAll]
      rw [step]
      apply ih
      · rw [sendVector_trace, flowControlled_append, h, b1]; rfl
      · rw [sendVector_trace, replay_append]; exact b2
      · rw [sendVector_trace, replay_append]; exact b3

/-- C1: for every plugin that has done nothing yet (both request handles are
`MPI_REQUEST_NULL`) and every sequence of `send` calls, at every point of the
resulting run at most one logical message (one size send plus one data send) is
in flight, and every `MPI_Issend` is issued through a null handle while no send
of an earlier message is outstanding; each call's two waits precede its two
sends. -/
theorem C1_send_keeps_one_message_in_flight (p : SimulationPlugin) (src : Loc)
    (msgs : List Bytes) :
    flowControlled Requests.init (({ p with trace := [] }).sendAll src msgs).trace = true := by
  apply sendAll_flowControlled
  · rfl
  · rfl
  · rfl

/-- The discipline is not vacuous: a second message issued without waiting for
the first is rejected. -/
theorem flowControlled_rejects_unwaited_send :
    flowControlled Requests.init
      [ .issend .sizeReq .localSendSize 1 0 (.int 1), .issend .dataReq .sendBuffer 1 1 (.bytes [0]),
        .issend .sizeReq .localSendSize 1 0 (.int 1), .issend .dataReq .sendBuffer 1 1 (.bytes [0]) ]
      = false := by
  decide

/-! ## Writes to the send buffer and to the size field -/

/-- The actions of `ParticleSenderPlugin::handshake`: it waits before it
serializes. -/
theorem handshake_trace (env : Collaborators) (s : ParticleSenderPlugin) :
    (s.handshake env).trace = s.trace ++
      [ .wait .sizeReq, .wait .dataReq, .reset .sizeReq, .reset .dataReq,
        .write .sendBuffer,
        .write .localSendSize, .wait .sizeReq, .wait .dataReq, .reset .sizeReq,
        .reset .dataReq,
        .issend .sizeReq .localSendSize 1 (2 * s.tag)
          (.int (env.serializeHandshake s.handshakeLists.1 s.handshakeLists.2).length),
        .issend .dataReq .sendBuffer
          (env.serializeHandshake s.handshakeLists.1 s.handshakeLists.2).length (2 * s.tag + 1)
          (.bytes (env.serializeHandshake s.handshakeLists.1 s.handshakeLists.2)) ] := by
  simp [ParticleSenderPlugin.handshake, SimulationPlugin.sendVector, SimulationPlugin.send,
    SimulationPlugin.waitPrevSend]

/-- A `handshake` that starts with no lost handle never stores into memory an
outstanding send reads: its `waitPrevSend` comes before the serialization. -/
theorem handshake_writes_after_wait (env : Collaborators) (s : ParticleSenderPlugin)
    (r : Requests) (hlost : r.lost = []) :
    writesAfterWait r ((({ s with trace := [] } : ParticleSenderPlugin).handshake env).trace)
      = true := by
  rw [handshake_trace]
  obtain ⟨sr, dr, lost, si, di⟩ := r
  simp only at hlost
  subst hlost
  cases sr <;> cases dr <;>
    simp [writesAfterWait, Requests.step, Requests.put, Requests.get, Requests.outstanding]

/-- C2: a `handshake` followed by the dump of step 2 (`dumpEvery = 2`).
`serializeAndSend` serializes into `sendBuffer`, and `send` stores
`localSendSize`, before `waitPrevSend` is reached, while the two sends of the
handshake are still outstanding: the run does not keep its writes after the
waits. -/
theorem C2_serializeAndSend_writes_while_send_outstanding :
    writesAfterWait Requests.init
      ((((ParticleSenderPlugin.sample.handshake Collaborators.sample).setTime ⟨9⟩ 2).beforeForces
          ParticleVector.sample).serializeAndSend Collaborators.sample).trace = false
    ∧ ((((ParticleSenderPlugin.sample.handshake Collaborators.sample).setTime ⟨9⟩ 2).beforeForces
          ParticleVector.sample).serializeAndSend Collaborators.sample).trace
      = (ParticleSenderPlugin.sample.handshake Collaborators.sample).trace ++
        [ .copy .particles, .copy (.channelData 0),
          .write .sendBuffer, .write .localSendSize,
          .wait .sizeReq, .wait .dataReq, .reset .sizeReq, .reset .dataReq,
          .issend .sizeReq .localSendSize 1 14 (.int 2),
          .issend .dataReq .sendBuffer 2 15 (.bytes [9, 0]) ] := by
  decide

/-! ## Message tags -/

/-- C7: for a plugin with tag `t1` the size send and the size receive use tag
`2*t1`, the data send and the data receive use `2*t1+1`, the two differ, and
for a plugin with another tag `t2` no tag of a send of the first equals a tag of
a receive of the second. -/
theorem C7_tags_never_collide (t1 t2 : Int) (h : t1 ≠ t2) (p : SimulationPlugin)
    (q : PostprocessPlugin) (src : Loc) (m : Bytes) (inc : Incoming) :
    (sizeSends (({ p with tag := t1, trace := [] } : SimulationPlugin).sendVector src m).trace).map
        Prod.fst = [2 * t1]
    ∧ (dataSends (({ p with tag := t1, trace := [] } : SimulationPlugin).sendVector src m).trace).map
        Prod.fst = [2 * t1 + 1]
    ∧ (({ q with tag := t1, log := [] } : PostprocessPlugin).waitData).log = [.irecv (2 * t1)]
    ∧ recvTags (({ q with tag := t1, log := [] } : PostprocessPlugin).recv inc.count
        inc.contents).log = [2 * t1 + 1]
    ∧ sendTags (({ p with tag := t1, trace := [] } : SimulationPlugin).sendVector src m).trace
        = [2 * t1, 2 * t1 + 1]
    ∧ recvTags (({ q with tag := t2, log := [] } : PostprocessPlugin).receive inc).log
        = [2 * t2, 2 * t2 + 1]
    ∧ List.Disjoint
        (sendTags (({ p with tag := t1, trace := [] } : SimulationPlugin).sendVector src m).trace)
        (recvTags (({ q with tag := t2, log := [] } : PostprocessPlugin).receive inc).log)
    ∧ 2 * t1 ≠ 2 * t1 + 1 := by
  have hs : sendTags (({ p with tag := t1, trace := [] } : SimulationPlugin).sendVector src m).trace
      = [2 * t1, 2 * t1 + 1] := by
    simp [SimulationPlugin.sendVector, SimulationPlugin.send, SimulationPlugin.waitPrevSend,
      sendTags]
  have hr : recvTags (({ q with tag := t2, log := [] } : PostprocessPlugin).receive inc).log
      = [2 * t2, 2 * t2 + 1] := by
    by_cases hc : inc.count = inc.announced <;>
      simp [PostprocessPlugin.receive, PostprocessPlugin.recv, PostprocessPlugin.waitData,
        PostprocessPlugin.awaitSize, recvTags, error, hc]
  refine ⟨?_, ?_, ?_, ?_, hs, hr, ?_, by omega⟩
  · simp [SimulationPlugin.sendVector, SimulationPlugin.send, SimulationPlugin.waitPrevSend,
      sizeSends]
  · simp [SimulationPlugin.sendVector, SimulationPlugin.send, SimulationPlugin.waitPrevSend,
      dataSends]
  · simp [PostprocessPlugin.waitData]
  · by_cases hc : inc.count = q.size <;>
      simp [PostprocessPlugin.recv, recvTags, error, hc]
  · rw [hs, hr]
    intro x hx hy
    simp only [List.mem_cons, List.mem_singleton, List.not_mem_nil, or_false] at hx hy
    omega

/-- C7 at the tags 0 and 1. -/
theorem C7_tags_never_collide_witness :
    (0 : Int) ≠ 1 ∧
    List.Disjoint
      (sendTags (({ ParticleSenderPlugin.sample.toSimulationPlugin with tag := 0, trace := [] } :
        SimulationPlugin).sendVector .sendBuffer [1, 2]).trace)
      (recvTags (({ (ParticleDumperPlugin.new "dump" "out" 0 5).toPostprocessPlugin with
        tag := 1, log := [] } : PostprocessPlugin).receive ⟨2, 2, [1, 2]⟩).log) :=
  ⟨by decide,
   (C7_tags_never_collide 0 1 (by decide) ParticleSenderPlugin.sample.toSimulationPlugin
      (ParticleDumperPlugin.new "dump" "out" 0 5).toPostprocessPlugin .sendBuffer [1, 2]
      ⟨2, 2, [1, 2]⟩).2.2.2.2.2.2.1⟩

/-! ## Receiving -/

theorem errorsOf_append (l1 l2 : List PostEvent) :
    errorsOf (l1 ++ l2) = errorsOf l1 ++ errorsOf l2 := by
  induction l1 with
  | nil => simp [errorsOf]
  | cons a as ih => cases a <;> simp [errorsOf, ih]

/-- C8: `recv` always returns, with `data` resized to exactly the announced
`size`; it reports an error exactly when the received count differs from
`size`, and after either outcome the next message is received in the same
way. -/
theorem C8_recv_reports_mismatch_and_returns (p : PostprocessPlugin) (count : Nat)
    (contents : Bytes) (next : Incoming) :
    (p.recv count contents).log
        = p.log ++ [.recv p.size (2 * p.tag + 1)]
            ++ (if count ≠ p.size then [.error p.name p.size count] else [])
    ∧ (errorsOf (p.recv count contents).log ≠ errorsOf p.log ↔ count ≠ p.size)
    ∧ (p.recv count contents).data.length = p.size
    ∧ (p.recv count contents).size = p.size
    ∧ ((p.recv count contents).receive next).data.length = next.announced
    ∧ (errorsOf ((p.recv count contents).receive next).log ≠ errorsOf (p.recv count contents).log
        ↔ next.count ≠ next.announced) := by
  have hlen : ∀ (buf : Bytes) (n : Nat) (c : Bytes),
      (overwrite (resize buf n 0) c).length = n := by
    intro buf n c
    simp only [overwrite, resize, List.length_append, List.length_take, List.length_drop,
      List.length_replicate]
    omega
  have herr := errorsOf_append
  refine ⟨?_, ?_, ?_, ?_, ?_, ?_⟩
  · by_cases hc : count = p.size <;> simp [PostprocessPlugin.recv, error, hc]
  · by_cases hc : count = p.size <;>
      simp [PostprocessPlugin.recv, error, hc, herr, errorsOf]
  · simp [PostprocessPlugin.recv, hlen]
  · simp [PostprocessPlugin.recv]
  · simp [PostprocessPlugin.receive, PostprocessPlugin.recv, PostprocessPlugin.waitData,
      PostprocessPlugin.awaitSize, hlen]
  · by_cases hc : next.count = next.announced <;>
      simp [PostprocessPlugin.receive, PostprocessPlugin.recv, PostprocessPlugin.waitData,
        PostprocessPlugin.awaitSize, error, hc, herr, errorsOf]

/-! ## The receiver's handshake -/

/-- The loop of the receiver's handshake, when every index it visits has a
name: either all remaining sizes are 1, 3 or 6 and the loop completes, or it
dies at the first size that is not, reporting that size and its name. -/
theorem handshakeLoop_spec (plugin : String) (names : List String) :
    ∀ (sizes : List Int) (i : Nat) (allNames : String) (channels : List XDMF.Channel),
      i + sizes.length ≤ names.length →
      ((∀ sz ∈ sizes, sz = 1 ∨ sz = 3 ∨ sz = 6) ∧
          ∃ res, ParticleDumperPlugin.handshakeLoop plugin names sizes i allNames channels
            = .ok res)
      ∨ (∃ k sz nm, sizes[k]? = some sz ∧ names[i + k]? = some nm
          ∧ (sz ≠ 1 ∧ sz ≠ 3 ∧ sz ≠ 6)
          ∧ (∀ j, j < k → ∀ s, sizes[j]? = some s → s = 1 ∨ s = 3 ∨ s = 6)
          ∧ ParticleDumperPlugin.handshakeLoop plugin names sizes i allNames channels
              = .error (.die plugin sz nm)) := by
  intro sizes
  induction sizes with
  | nil =>
      intro i allNames channels _
      exact Or.inl ⟨by simp, _, rfl⟩
  | cons sz rest ih =>
      intro i allNames channels hlen
      simp only [List.length_cons] at hlen
      have hi : i < names.length := by omega
      have hnm : names[i]? = some names[i] := List.getElem?_eq_getElem hi
      have hvalid : ∀ (ty : ChannelType), (sz = 1 ∨ sz = 3 ∨ sz = 6) →
          ParticleDumperPlugin.handshakeLoop plugin names rest (i + 1)
              (allNames ++ ", " ++ names[i]) (channels ++ [init_channel ty sz names[i]])
            = ParticleDumperPlugin.handshakeLoop plugin names (sz :: rest) i allNames channels →
          ((∀ s ∈ sz :: rest, s = 1 ∨ s = 3 ∨ s = 6) ∧
              ∃ res, ParticleDumperPlugin.handshakeLoop plugin names (sz :: rest) i allNames
                channels = .ok res)
          ∨ (∃ k s nm, (sz :: rest)[k]? = some s ∧ names[i + k]? = some nm
              ∧ (s ≠ 1 ∧ s ≠ 3 ∧ s ≠ 6)
              ∧ (∀ j, j < k → ∀ s0, (sz :: rest)[j]? = some s0 → s0 = 1 ∨ s0 = 3 ∨ s0 = 6)
              ∧ ParticleDumperPlugin.handshakeLoop plugin names (sz :: rest) i allNames channels
                  = .error (.die plugin s nm)) := by
        intro ty hsz heq
        rcases ih (i + 1) (allNames ++ ", " ++ names[i])
            (channels ++ [init_channel ty sz names[i]]) (by omega) with
          ⟨hall, res, hres⟩ | ⟨k, s, nm, hk, hn, hbad, hbefore, hdie⟩
        · left
          refine ⟨?_, res, by rw [← heq, hres]⟩
          intro s hs
          rcases List.mem_cons.mp hs with rfl | hs
          · exact hsz
          · exact hall s hs
        · right
          refine ⟨k + 1, s, nm, by simpa using hk, ?_, hbad, ?_, by rw [← heq, hdie]⟩
          · rw [← hn]; congr 1; omega
          · intro j hj s0 hs0
            cases j with
            | zero =>
                simp only [List.getElem?_cons_zero, Option.some.injEq] at hs0
                subst hs0; exact hsz
            | succ j =>
                simp only [List.getElem?_cons_succ] at hs0
                exact hbefore j (by omega) s0 hs0
      by_cases h1 : sz = 1
      · exact hvalid .Scalar (Or.inl h1) (by simp [ParticleDumperPlugin.handshakeLoop, hnm, h1])
      by_cases h3 : sz = 3
      · exact hvalid .Vector (Or.inr (Or.inl h3))
          (by simp [ParticleDumperPlugin.handshakeLoop, hnm, h3])
      by_cases h6 : sz = 6
      · exact hvalid .Tensor6 (Or.inr (Or.inr h6))
          (by simp [ParticleDumperPlugin.handshakeLoop, hnm, h6])
      right
      refine ⟨0, sz, names[i], by simp, by simp, ⟨h1, h3, h6⟩, ?_, ?_⟩
      · intro j hj; omega
      · simp [ParticleDumperPlugin.handshakeLoop, hnm, h1, h3, h6, die]

/-- The whole handshake fails exactly as its channel loop does. -/
theorem handshake_error_iff (env : Collaborators) (d : ParticleDumperPlugin) (inc : Incoming)
    (e : Fatal) :
    d.handshake env inc = .error e ↔
      d.buildChannels (env.deserializeHandshake (d.toPostprocessPlugin.receive inc).data).1
        (env.deserializeHandshake (d.toPostprocessPlugin.receive inc).data).2 = .error e := by
  unfold ParticleDumperPlugin.handshake
  cases h : d.buildChannels (env.deserializeHandshake (d.toPostprocessPlugin.receive inc).data).1
      (env.deserializeHandshake (d.toPostprocessPlugin.receive inc).data).2 with
  | error e2 => simp [h]
  | ok res => simp [h]

/-- The whole handshake completes when its channel loop does, with the channels
the loop built. -/
theorem handshake_ok_of_buildChannels (env : Collaborators) (d : ParticleDumperPlugin)
    (inc : Incoming) (res : String × List XDMF.Channel)
    (h : d.buildChannels (env.deserializeHandshake (d.toPostprocessPlugin.receive inc).data).1
        (env.deserializeHandshake (d.toPostprocessPlugin.receive inc).data).2 = .ok res) :
    ∃ d2, d.handshake env inc = .ok d2 ∧ d2.channels = res.2 := by
  unfold ParticleDumperPlugin.handshake
  simp [h]

/-- C3: when the deserialized name list has a name for every entry of the
deserialized size list, `ParticleDumperPlugin::handshake` dies if and only if
some size is not 1, 3 or 6; it completes when all sizes are 1, 3 or 6; and when
it dies, the size and name it reports are those of the first entry, in list
order, whose size is not 1, 3 or 6. -/
theorem C3_handshake_dies_iff_invalid_size (env : Collaborators) (d : ParticleDumperPlugin)
    (inc : Incoming)
    (hnames : (env.deserializeHandshake (d.toPostprocessPlugin.receive inc).data).1.length
      ≤ (env.deserializeHandshake (d.toPostprocessPlugin.receive inc).data).2.length) :
    ((∃ sz nm, d.handshake env inc = .error (.die d.name sz nm)) ↔
        ∃ sz ∈ (env.deserializeHandshake (d.toPostprocessPlugin.receive inc).data).1,
          sz ≠ 1 ∧ sz ≠ 3 ∧ sz ≠ 6)
    ∧ ((∀ sz ∈ (env.deserializeHandshake (d.toPostprocessPlugin.receive inc).data).1,
          sz = 1 ∨ sz = 3 ∨ sz = 6) → ∃ d2, d.handshake env inc = .ok d2)
    ∧ (∀ e, d.handshake env inc = .error e → ∃ (sz : Int) (nm : String) (i : Nat),
        e = .die d.name sz nm
        ∧ (env.deserializeHandshake (d.toPostprocessPlugin.receive inc).data).1[i]? = some sz
        ∧ (env.deserializeHandshake (d.toPostprocessPlugin.receive inc).data).2[i]? = some nm
        ∧ (sz ≠ 1 ∧ sz ≠ 3 ∧ sz ≠ 6)
        ∧ ∀ j : Nat, j < i → ∀ s,
            (env.deserializeHandshake (d.toPostprocessPlugin.receive inc).data).1[j]? = some s →
            s = 1 ∨ s = 3 ∨ s = 6) := by
  have hspec := handshakeLoop_spec d.name
    (env.deserializeHandshake (d.toPostprocessPlugin.receive inc).data).2
    (env.deserializeHandshake (d.toPostprocessPlugin.receive inc).data).1 0 "velocity"
    (d.channels ++ [init_channel .Vector 3 "velocity"]) (by omega)
  rcases hspec with ⟨hall, res, hres⟩ | ⟨k, sz, nm, hk, hn, hbad, hbefore, hdie⟩
  · have hok := handshake_ok_of_buildChannels env d inc res hres
    obtain ⟨d2, hd2, _⟩ := hok
    refine ⟨⟨?_, ?_⟩, fun _ => ⟨d2, hd2⟩, ?_⟩
    · rintro ⟨sz, nm, h⟩; rw [hd2] at h; cases h
    · rintro ⟨sz, hmem, h1, h3, h6⟩
      rcases hall sz hmem with h | h | h <;> contradiction
    · intro e h; rw [hd2] at h; cases h
  · have hfail : d.handshake env inc = .error (.die d.name sz nm) :=
      (handshake_error_iff env d inc _).mpr hdie
    refine ⟨⟨fun _ => ⟨sz, List.getElem?_mem hk, hbad⟩, fun _ => ⟨sz, nm, hfail⟩⟩, ?_, ?_⟩
    · intro hall
      rcases hall sz (List.getElem?_mem hk) with h | h | h
      · exact absurd h hbad.1
      · exact absurd h hbad.2.1
      · exact absurd h hbad.2.2
    · intro e h
      rw [hfail] at h
      cases h
      exact ⟨sz, nm, k, rfl, hk, by simpa using hn, hbad, hbefore⟩

/-- C3 at a message with the sizes 1, 7, 3, each with a name: the handshake dies
because of the 7. -/
theorem C3_handshake_dies_iff_invalid_size_witness :
    (Collaborators.sample.deserializeHandshake
        ((ParticleDumperPlugin.new "dump" "out" 7 5).toPostprocessPlugin.receive
          ⟨3, 3, [1, 7, 3]⟩).data).1.length
      ≤ (Collaborators.sample.deserializeHandshake
        ((ParticleDumperPlugin.new "dump" "out" 7 5).toPostprocessPlugin.receive
          ⟨3, 3, [1, 7, 3]⟩).data).2.length
    ∧ ((∃ sz nm, (ParticleDumperPlugin.new "dump" "out" 7 5).handshake Collaborators.sample
          ⟨3, 3, [1, 7, 3]⟩ = .error (.die "dump" sz nm)) ↔
        ∃ sz ∈ (Collaborators.sample.deserializeHandshake
            ((ParticleDumperPlugin.new "dump" "out" 7 5).toPostprocessPlugin.receive
              ⟨3, 3, [1, 7, 3]⟩).data).1, sz ≠ 1 ∧ sz ≠ 3 ∧ sz ≠ 6) :=
  ⟨by decide,
   (C3_handshake_dies_iff_invalid_size Collaborators.sample
      (ParticleDumperPlugin.new "dump" "out" 7 5) ⟨3, 3, [1, 7, 3]⟩ (by decide)).1⟩

/-- C3 as stated, without the condition on the names, fails: for the size list
[1] and an empty name list every size is 1, 3 or 6, yet the handshake does not
complete, because the loop reads `names[0]` past the end of the name list. -/
theorem C3_counterexample_size_without_name :
    (∀ sz ∈ (Collaborators.nameless.deserializeHandshake
        ((ParticleDumperPlugin.new "dump" "out" 7 5).toPostprocessPlugin.receive
          ⟨1, 1, [1]⟩).data).1, sz = 1 ∨ sz = 3 ∨ sz = 6)
    ∧ ¬ ∃ d2, (ParticleDumperPlugin.new "dump" "out" 7 5).handshake Collaborators.nameless
          ⟨1, 1, [1]⟩ = .ok d2 := by
  have hrun : (ParticleDumperPlugin.new "dump" "out" 7 5).handshake Collaborators.nameless
      ⟨1, 1, [1]⟩ = .error (.outOfRange 0) := rfl
  refine ⟨by decide, ?_⟩
  rintro ⟨d2, hd2⟩
  rw [hrun] at hd2
  cases hd2

/-! ## Handshake round trip -/

theorem handshakeSizes_eq_map (s : ParticleSenderPlugin) :
    s.handshakeSizes = s.channelTypes.map ChannelType.size := by
  have h : ∀ (types : List ChannelType) (acc : List Int),
      types.foldl (fun sizes t => sizes ++ [t.size]) acc = acc ++ types.map ChannelType.size := by
    intro types
    induction types with
    | nil => intro acc; simp
    | cons t ts ih => intro acc; simp [ih]
  simpa [ParticleSenderPlugin.handshakeSizes] using h s.channelTypes []

/-- The receiver's loop, run on the sizes of a list of channel types and as
many names, completes and appends one channel per entry with that name and
type. -/
theorem handshakeLoop_of_types (plugin : String) :
    ∀ (types : List ChannelType) (pre names : List String) (allNames : String)
      (channels : List XDMF.Channel),
      names.length = types.length →
      ∃ a, ParticleDumperPlugin.handshakeLoop plugin (pre ++ names)
          (types.map ChannelType.size) pre.length allNames channels
        = .ok (a, channels ++ List.zipWith (fun nm t => XDMF.Channel.mk nm .null t) names types) := by
  intro types
  induction types with
  | nil =>
      intro pre names allNames channels hlen
      exact ⟨allNames, by simp [ParticleDumperPlugin.handshakeLoop]⟩
  | cons t ts ih =>
      intro pre names allNames channels hlen
      cases names with
      | nil => simp at hlen
      | cons nm rest =>
          simp only [List.length_cons, Nat.add_right_cancel_iff] at hlen
          have hget : (pre ++ nm :: rest)[pre.length]? = some nm := by
            rw [List.getElem?_append_right (Nat.le_refl _)]; simp
          have hpre : pre ++ nm :: rest = (pre ++ [nm]) ++ rest := by simp
          have hidx : pre.length + 1 = (pre ++ [nm]).length := by simp
          obtain ⟨a, ha⟩ := ih (pre ++ [nm]) rest (allNames ++ ", " ++ nm)
            (channels ++ [XDMF.Channel.mk nm .null t]) hlen
          refine ⟨a, ?_⟩
          rw [← hpre, ← hidx] at ha
          cases t <;>
            simp [ParticleDumperPlugin.handshakeLoop, hget, ChannelType.size, init_channel, ha]

/-- C4: for a sender whose `channelNames` and `channelTypes` are equally long,
the lists its handshake serializes and sends are exactly the sizes 1/3/6 of
the configured types and the configured names, in order, with nothing added
for velocity; a freshly constructed receiver that deserializes these lists
completes its handshake and ends with the channel list velocity : Vector
followed by one channel per configured channel, same order, name and type, of
length one more than the number of configured channels. -/
theorem C4_handshake_round_trip (env : Collaborators) (s : ParticleSenderPlugin)
    (name path : String) (tag : Int) (zeroPadding : Nat) (inc : Incoming)
    (hlen : s.channelNames.length = s.channelTypes.length)
    (hwire : env.deserializeHandshake
        ((ParticleDumperPlugin.new name path tag zeroPadding).toPostprocessPlugin.receive inc).data
      = s.handshakeLists) :
    s.handshakeLists = (s.channelTypes.map ChannelType.size, s.channelNames)
    ∧ s.handshakeLists.1.length = s.channelNames.length
    ∧ (s.handshake env).sendBuffer
        = env.serializeHandshake (s.channelTypes.map ChannelType.size) s.channelNames
    ∧ dataSends ((({ s with trace := [] } : ParticleSenderPlugin).handshake env).trace)
        = [(2 * s.tag + 1,
            ((env.serializeHandshake (s.channelTypes.map ChannelType.size)
              s.channelNames).length : Int),
            env.serializeHandshake (s.channelTypes.map ChannelType.size) s.channelNames)]
    ∧ ∃ d2, (ParticleDumperPlugin.new name path tag zeroPadding).handshake env inc = .ok d2
        ∧ d2.channels = XDMF.Channel.mk "velocity" .null .Vector ::
            List.zipWith (fun nm t => XDMF.Channel.mk nm .null t) s.channelNames s.channelTypes
        ∧ d2.channels.length = s.channelNames.length + 1 := by
  have hlists : s.handshakeLists = (s.channelTypes.map ChannelType.size, s.channelNames) := by
    simp [ParticleSenderPlugin.handshakeLists, handshakeSizes_eq_map]
  obtain ⟨a, ha⟩ := handshakeLoop_of_types name s.channelTypes [] s.channelNames "velocity"
    ([] ++ [init_channel .Vector 3 "velocity"]) hlen
  have hbuild : (ParticleDumperPlugin.new name path tag zeroPadding).buildChannels
      (env.deserializeHandshake ((ParticleDumperPlugin.new name path tag
        zeroPadding).toPostprocessPlugin.receive inc).data).1
      (env.deserializeHandshake ((ParticleDumperPlugin.new name path tag
        zeroPadding).toPostprocessPlugin.receive inc).data).2
      = .ok (a, [init_channel .Vector 3 "velocity"] ++
          List.zipWith (fun nm t => XDMF.Channel.mk nm .null t) s.channelNames s.channelTypes) := by
    rw [hwire, hlists]
    simpa [ParticleDumperPlugin.buildChannels, ParticleDumperPlugin.new] using ha
  obtain ⟨d2, hd2, hch⟩ := handshake_ok_of_buildChannels env _ inc _ hbuild
  refine ⟨hlists, ?_, ?_, ?_, d2, hd2, ?_, ?_⟩
  · simp [hlists, hlen]
  · simp [ParticleSenderPlugin.handshake, SimulationPlugin.sendVector, SimulationPlugin.send,
      SimulationPlugin.waitPrevSend, hlists]
  · simp [ParticleSenderPlugin.handshake, SimulationPlugin.sendVector, SimulationPlugin.send,
      SimulationPlugin.waitPrevSend, ParticleSenderPlugin.handshakeLists, handshakeSizes_eq_map,
      dataSends]
  · simpa [init_channel] using hch
  · rw [hch]; simp [hlen]

/-- C4 for one scalar channel: the bytes the sender's handshake puts on the wire
are the ones the receiver gets. -/
theorem C4_handshake_round_trip_witness :
    ParticleSenderPlugin.sampleChannel.channelNames.length
        = ParticleSenderPlugin.sampleChannel.channelTypes.length
    ∧ Collaborators.sample.deserializeHandshake
        ((ParticleDumperPlugin.new "dump" "out" 7 5).toPostprocessPlugin.receive
          ⟨1, 1, (ParticleSenderPlugin.sampleChannel.handshake Collaborators.sample).sendBuffer⟩).data
      = ParticleSenderPlugin.sampleChannel.handshakeLists
    ∧ ∃ d2, (ParticleDumperPlugin.new "dump" "out" 7 5).handshake Collaborators.sample
          ⟨1, 1, (ParticleSenderPlugin.sampleChannel.handshake Collaborators.sample).sendBuffer⟩
          = .ok d2
        ∧ d2.channels = XDMF.Channel.mk "velocity" .null .Vector ::
            List.zipWith (fun nm t => XDMF.Channel.mk nm .null t)
              ParticleSenderPlugin.sampleChannel.channelNames
              ParticleSenderPlugin.sampleChannel.channelTypes
        ∧ d2.channels.length = ParticleSenderPlugin.sampleChannel.channelNames.length + 1 :=
  ⟨by decide, by decide,
   (C4_handshake_round_trip Collaborators.sample ParticleSenderPlugin.sampleChannel "dump" "out"
      7 5 ⟨1, 1, (ParticleSenderPlugin.sampleChannel.handshake Collaborators.sample).sendBuffer⟩
      (by decide) (by decide)).2.2.2.2⟩

/-! ## Dump steps of the sender -/

theorem foldl_set_getElem? {α : Type} (f : Nat → α) (cd0 : List α) :
    ∀ k : Nat, k ≤ cd0.length → ∀ j : Nat,
      ((List.range k).foldl (fun cd i => cd.set i (f i)) cd0)[j]?
        = if j < k then some (f j) else cd0[j]? := by
  have hlen : ∀ k : Nat,
      ((List.range k).foldl (fun cd i => cd.set i (f i)) cd0).length = cd0.length := by
    intro k
    induction k with
    | zero => simp
    | succ k ih => simp [List.range_succ, List.foldl_append, ih]
  intro k
  induction k with
  | zero => intro _ j; simp
  | succ k ih =>
      intro hk j
      simp only [List.range_succ, List.foldl_append, List.foldl_cons, List.foldl_nil,
        List.getElem?_set, hlen]
      by_cases hjk : k = j
      · subst hjk
        simp [show k < cd0.length by omega]
      · rw [if_neg hjk, ih (by omega) j]
        by_cases hlt : j < k
        · simp [hlt, show j < k + 1 by omega]
        · simp [hlt, show ¬ j < k + 1 by omega]

theorem foldl_set_eq_map (f : String → Bytes) (names : List String) (cd0 : List Bytes)
    (h : cd0.length = names.length) :
    (List.range names.length).foldl (fun cd i => cd.set i (f (names.getD i ""))) cd0
      = names.map f := by
  apply List.ext_getElem?
  intro j
  rw [foldl_set_getElem? (fun i => f (names.getD i "")) cd0 names.length (by omega) j]
  by_cases hj : j < names.length
  · simp [hj, List.getD_eq_getElem?_getD, List.getElem?_eq_getElem hj]
  · have h1 : cd0[j]? = none := List.getElem?_eq_none (by omega)
    have h2 : names[j]? = none := List.getElem?_eq_none (by omega)
    simp [hj, h1, h2]

theorem copyLoop_eq (pv : ParticleVector) (k : Nat) (s1 : ParticleSenderPlugin) :
    (List.range k).foldl (ParticleSenderPlugin.copyChannel pv) s1
      = { s1 with
            channelData := (List.range k).foldl
              (fun cd i => cd.set i (pv.extraPerParticle (s1.channelNames.getD i "")))
              s1.channelData,
            trace := s1.trace ++ (List.range k).map (fun i => Event.copy (.channelData i)) } := by
  induction k with
  | zero => simp
  | succ k ih =>
      rw [List.range_succ, List.foldl_append, ih]
      simp [ParticleSenderPlugin.copyChannel, List.foldl_append]

theorem copies_append (t1 t2 : List Event) : copies (t1 ++ t2) = copies t1 ++ copies t2 := by
  induction t1 with
  | nil => simp [copies]
  | cons e es ih => cases e <;> simp [copies, ih]

theorem dataSends_append (t1 t2 : List Event) :
    dataSends (t1 ++ t2) = dataSends t1 ++ dataSends t2 := by
  induction t1 with
  | nil => simp [dataSends]
  | cons e es ih =>
      cases e with
      | issend slot reads count tag payload =>
          cases slot <;> cases payload <;> simp [dataSends, ih]
      | _ => simp [dataSends, ih]

theorem sizeSends_append (t1 t2 : List Event) :
    sizeSends (t1 ++ t2) = sizeSends t1 ++ sizeSends t2 := by
  induction t1 with
  | nil => simp [sizeSends]
  | cons e es ih =>
      cases e with
      | issend slot reads count tag payload =>
          cases slot <;> cases payload <;> simp [sizeSends, ih]
      | _ => simp [sizeSends, ih]

theorem copies_map_copy (l : List Nat) :
    copies (l.map fun i => Event.copy (.channelData i)) = l.map CopyDst.channelData := by
  induction l with
  | nil => simp [copies]
  | cons a as ih => simp [copies, ih]

theorem dataSends_map_copy (l : List Nat) :
    dataSends (l.map fun i => Event.copy (.channelData i)) = [] := by
  induction l with
  | nil => simp [dataSends]
  | cons a as ih => simp [dataSends, ih]

/-- The constructor gives `channelData` one entry per channel name. -/
theorem new_channelData_length (name pvName : String) (dumpEvery : Int)
    (channelNames : List String) (channelTypes : List ChannelType) (tag : Int) :
    (ParticleSenderPlugin.new name pvName dumpEvery channelNames channelTypes tag).channelData.length
      = (ParticleSenderPlugin.new name pvName dumpEvery channelNames
          channelTypes tag).channelNames.length := by
  simp [ParticleSenderPlugin.new]

/-- The guard lets a step through exactly when it is a positive multiple of
`dumpEvery`. -/
theorem skips_eq_false_iff (s : ParticleSenderPlugin) (hd : 0 < s.dumpEvery)
    (hs : 0 ≤ s.currentTimeStep) :
    s.skips = false ↔ (s.currentTimeStep % s.dumpEvery = 0 ∧ s.currentTimeStep ≠ 0) := by
  simp [ParticleSenderPlugin.skips, Int.tmod_eq_emod hs (le_of_lt hd)]

/-- What `beforeForces` does on a step the guard lets through. -/
theorem beforeForces_of_not_skips (pv : ParticleVector) (s : ParticleSenderPlugin)
    (hskip : s.skips = false) (hcd : s.channelData.length = s.channelNames.length) :
    s.beforeForces pv
      = { s with
            particles := pv.coosvels,
            channelData := s.channelNames.map pv.extraPerParticle,
            trace := s.trace ++ Event.copy .particles ::
              (List.range s.channelNames.length).map (fun i => Event.copy (.channelData i)) } := by
  simp only [ParticleSenderPlugin.beforeForces, hskip, copyLoop_eq, Bool.false_eq_true,
    if_false, foldl_set_eq_map pv.extraPerParticle s.channelNames s.channelData hcd,
    List.append_assoc, List.singleton_append]

/-- What `serializeAndSend` sends on a step the guard lets through. -/
theorem serializeAndSend_of_not_skips (env : Collaborators) (s : ParticleSenderPlugin)
    (hskip : s.skips = false) :
    (s.serializeAndSend env).trace
      = s.trace ++
        [ .write .sendBuffer, .write .localSendSize,
          .wait .sizeReq, .wait .dataReq, .reset .sizeReq, .reset .dataReq,
          .issend .sizeReq .localSendSize 1 (2 * s.tag)
            (.int (env.serializeDump s.currentTime
              (s.particles.map fun p => { p with r := env.local2global p.r })
              s.channelData).length),
          .issend .dataReq .sendBuffer
            (env.serializeDump s.currentTime
              (s.particles.map fun p => { p with r := env.local2global p.r })
              s.channelData).length
            (2 * s.tag + 1)
            (.bytes (env.serializeDump s.currentTime
              (s.particles.map fun p => { p with r := env.local2global p.r })
              s.channelData)) ] := by
  simp [ParticleSenderPlugin.serializeAndSend, hskip, SimulationPlugin.sendVector,
    SimulationPlugin.send, SimulationPlugin.waitPrevSend]

/-- C5: for `dumpEvery > 0`, a step value `currentTimeStep >= 0` and a sender
whose `channelData` has one entry per channel name (as the constructor makes
it): if `currentTimeStep mod dumpEvery = 0` and `currentTimeStep != 0`, then
`beforeForces` copies the particles and every named channel of the population,
and `serializeAndSend` sends exactly one size announcement and one data
message, the serialization of the current time, the particles in global
coordinates and the channel data (run after `beforeForces`, of the data just
copied); on every other step both hooks return the plugin unchanged.  Hence
within one step data is sent if and only if it was copied. -/
theorem C5_copy_and_send_exactly_on_dump_steps (env : Collaborators) (pv : ParticleVector)
    (s : ParticleSenderPlugin) (hd : 0 < s.dumpEvery) (hs : 0 ≤ s.currentTimeStep)
    (hcd : s.channelData.length = s.channelNames.length) :
    (if s.currentTimeStep % s.dumpEvery = 0 ∧ s.currentTimeStep ≠ 0 then
        (s.beforeForces pv).particles = pv.coosvels
        ∧ (s.beforeForces pv).channelData = s.channelNames.map pv.extraPerParticle
        ∧ copies (s.beforeForces pv).trace
            = copies s.trace ++ CopyDst.particles ::
                (List.range s.channelNames.length).map CopyDst.channelData
        ∧ dataSends (s.serializeAndSend env).trace
            = dataSends s.trace ++
              [(2 * s.tag + 1,
                ((env.serializeDump s.currentTime
                  (s.particles.map fun p => { p with r := env.local2global p.r })
                  s.channelData).length : Int),
                env.serializeDump s.currentTime
                  (s.particles.map fun p => { p with r := env.local2global p.r })
                  s.channelData)]
        ∧ sizeSends (s.serializeAndSend env).trace
            = sizeSends s.trace ++
              [(2 * s.tag,
                ((env.serializeDump s.currentTime
                  (s.particles.map fun p => { p with r := env.local2global p.r })
                  s.channelData).length : Int))]
        ∧ dataSends ((s.beforeForces pv).serializeAndSend env).trace
            = dataSends s.trace ++
              [(2 * s.tag + 1,
                ((env.serializeDump s.currentTime
                  (pv.coosvels.map fun p => { p with r := env.local2global p.r })
                  (s.channelNames.map pv.extraPerParticle)).length : Int),
                env.serializeDump s.currentTime
                  (pv.coosvels.map fun p => { p with r := env.local2global p.r })
                  (s.channelNames.map pv.extraPerParticle))]
      else s.beforeForces pv = s ∧ s.serializeAndSend env = s)
    ∧ (copies (s.beforeForces pv).trace ≠ copies s.trace ↔
        dataSends ((s.beforeForces pv).serializeAndSend env).trace
          ≠ dataSends (s.beforeForces pv).trace) := by
  by_cases hc : s.currentTimeStep % s.dumpEvery = 0 ∧ s.currentTimeStep ≠ 0
  · have hskip : s.skips = false := (skips_eq_false_iff s hd hs).mpr hc
    have hbf := beforeForces_of_not_skips pv s hskip hcd
    have hskip2 : (s.beforeForces pv).skips = false := by
      rw [hbf]; simpa [ParticleSenderPlugin.skips] using hskip
    have hsend := serializeAndSend_of_not_skips env s hskip
    have hsend2 := serializeAndSend_of_not_skips env (s.beforeForces pv) hskip2
    have hcopies : copies (s.beforeForces pv).trace
        = copies s.trace ++ CopyDst.particles ::
            (List.range s.channelNames.length).map CopyDst.channelData := by
      rw [hbf]; simp [copies_append, copies, copies_map_copy]
    have hdata : dataSends (s.beforeForces pv).trace = dataSends s.trace := by
      rw [hbf]; simp [dataSends_append, dataSends, dataSends_map_copy]
    refine ⟨?_, ?_⟩
    · rw [if_pos hc]
      refine ⟨by rw [hbf], by rw [hbf], hcopies, ?_, ?_, ?_⟩
      · rw [hsend]; simp [dataSends_append, dataSends]
      · rw [hsend]; simp [sizeSends_append, sizeSends]
      · rw [hsend2, dataSends_append, hdata]
        rw [hbf]; simp [dataSends]
    · rw [hcopies, hsend2, dataSends_append]
      simp [dataSends]
  · have hskip : s.skips = true := by
      cases h : s.skips
      · exact absurd ((skips_eq_false_iff s hd hs).mp h) hc
      · rfl
    have h1 : s.beforeForces pv = s := by simp [ParticleSenderPlugin.beforeForces, hskip]
    have h2 : s.serializeAndSend env = s := by
      simp [ParticleSenderPlugin.serializeAndSend, hskip]
    refine ⟨?_, ?_⟩
    · rw [if_neg hc]; exact ⟨h1, h2⟩
    · rw [h1, h2]; simp

/-- C5 at step 2 of a sender with `dumpEvery = 2`: data is copied and sent. -/
theorem C5_copy_and_send_exactly_on_dump_steps_witness :
    (0 : Int) < (ParticleSenderPlugin.sample.setTime ⟨9⟩ 2).dumpEvery
    ∧ (0 : Int) ≤ (ParticleSenderPlugin.sample.setTime ⟨9⟩ 2).currentTimeStep
    ∧ (ParticleSenderPlugin.sample.setTime ⟨9⟩ 2).channelData.length
        = (ParticleSenderPlugin.sample.setTime ⟨9⟩ 2).channelNames.length
    ∧ (copies ((ParticleSenderPlugin.sample.setTime ⟨9⟩ 2).beforeForces
          ParticleVector.sample).trace
          ≠ copies (ParticleSenderPlugin.sample.setTime ⟨9⟩ 2).trace ↔
        dataSends (((ParticleSenderPlugin.sample.setTime ⟨9⟩ 2).beforeForces
            ParticleVector.sample).serializeAndSend Collaborators.sample).trace
          ≠ dataSends ((ParticleSenderPlugin.sample.setTime ⟨9⟩ 2).beforeForces
            ParticleVector.sample).trace) :=
  ⟨by decide, by decide, by decide,
   (C5_copy_and_send_exactly_on_dump_steps Collaborators.sample ParticleVector.sample
      (ParticleSenderPlugin.sample.setTime ⟨9⟩ 2) (by decide) (by decide) (by decide)).2⟩

/-! ## The end-to-end scenario -/

theorem serializeAndSend_config (env : Collaborators) (s : ParticleSenderPlugin) :
    (s.serializeAndSend env).dumpEvery = s.dumpEvery
    ∧ (s.serializeAndSend env).channelNames = s.channelNames
    ∧ (s.serializeAndSend env).channelData = s.channelData := by
  unfold ParticleSenderPlugin.serializeAndSend
  split <;> simp

/-- One driver step: the clock advances by one, the plugin keeps its
configuration, and a data message is sent exactly when the step the driver is
at is a positive multiple of `dumpEvery`. -/
theorem step_spec (env : Collaborators) (advance : float → float) (sim : Simulation)
    (hd : 0 < sim.plugin.dumpEvery) (hs : 0 ≤ sim.currentStep)
    (hcd : sim.plugin.channelData.length = sim.plugin.channelNames.length) :
    (Simulation.step env advance sim).currentStep = sim.currentStep + 1
    ∧ (Simulation.step env advance sim).plugin.dumpEvery = sim.plugin.dumpEvery
    ∧ (Simulation.step env advance sim).plugin.channelData.length
        = (Simulation.step env advance sim).plugin.channelNames.length
    ∧ (Simulation.step env advance sim).sentAt
        = sim.sentAt ++
            (if sim.currentStep % sim.plugin.dumpEvery = 0 ∧ sim.currentStep ≠ 0
             then [sim.currentStep] else [])
    ∧ (dataSends (Simulation.step env advance sim).plugin.trace).length
        = (dataSends sim.plugin.trace).length +
            (if sim.currentStep % sim.plugin.dumpEvery = 0 ∧ sim.currentStep ≠ 0
             then 1 else 0) := by
  have hstep : (sim.plugin.setTime sim.currentTime sim.currentStep).currentTimeStep
      = sim.currentStep := rfl
  have hdump : (sim.plugin.setTime sim.currentTime sim.currentStep).dumpEvery
      = sim.plugin.dumpEvery := rfl
  have hnames : (sim.plugin.setTime sim.currentTime sim.currentStep).channelNames
      = sim.plugin.channelNames := rfl
  have htrace : (sim.plugin.setTime sim.currentTime sim.currentStep).trace
      = sim.plugin.trace := rfl
  have hunfold : Simulation.step env advance sim
      = { sim with
            plugin := ((sim.plugin.setTime sim.currentTime sim.currentStep).beforeForces
              sim.pv).serializeAndSend env,
            sentAt :=
              if (dataSends ((sim.plugin.setTime sim.currentTime sim.currentStep).beforeForces
                    sim.pv).trace).length
                  < (dataSends (((sim.plugin.setTime sim.currentTime
                      sim.currentStep).beforeForces sim.pv).serializeAndSend env).trace).length
              then sim.sentAt ++ [sim.currentStep] else sim.sentAt,
            currentTime := advance sim.currentTime,
            currentStep := sim.currentStep + 1 } := rfl
  have hcfg := serializeAndSend_config env
    ((sim.plugin.setTime sim.currentTime sim.currentStep).beforeForces sim.pv)
  rw [hunfold]
  simp only []
  by_cases hc : sim.currentStep % sim.plugin.dumpEvery = 0 ∧ sim.currentStep ≠ 0
  · have hskip : (sim.plugin.setTime sim.currentTime sim.currentStep).skips = false :=
      (skips_eq_false_iff (sim.plugin.setTime sim.currentTime sim.currentStep) hd hs).mpr hc
    have hbf := beforeForces_of_not_skips sim.pv
      (sim.plugin.setTime sim.currentTime sim.currentStep) hskip hcd
    have hbft : dataSends ((sim.plugin.setTime sim.currentTime sim.currentStep).beforeForces
        sim.pv).trace = dataSends sim.plugin.trace := by
      rw [hbf]; simp [dataSends_append, dataSends, dataSends_map_copy, htrace]
    have hskip2 : ((sim.plugin.setTime sim.currentTime sim.currentStep).beforeForces
        sim.pv).skips = false := by
      rw [hbf]; simpa [ParticleSenderPlugin.skips] using hskip
    have hlen : (dataSends (((sim.plugin.setTime sim.currentTime
        sim.currentStep).beforeForces sim.pv).serializeAndSend env).trace).length
        = (dataSends sim.plugin.trace).length + 1 := by
      rw [serializeAndSend_of_not_skips env _ hskip2, dataSends_append, hbft]
      simp [dataSends]
    refine ⟨trivial, ?_, ?_, ?_, ?_⟩
    · rw [hcfg.1, hbf]; rfl
    · rw [hcfg.2.2, hcfg.2.1, hbf]; simp [hnames]
    · rw [hlen, hbft, if_pos hc]; simp
    · rw [hlen, if_pos hc]
  · have hskip : (sim.plugin.setTime sim.currentTime sim.currentStep).skips = true := by
      cases h : (sim.plugin.setTime sim.currentTime sim.currentStep).skips
      · exact absurd ((skips_eq_false_iff
          (sim.plugin.setTime sim.currentTime sim.currentStep) hd hs).mp h) hc
      · rfl
    have hb : (sim.plugin.setTime sim.currentTime sim.currentStep).beforeForces sim.pv
        = sim.plugin.setTime sim.currentTime sim.currentStep := by
      simp [ParticleSenderPlugin.beforeForces, hskip]
    have hsd : (sim.plugin.setTime sim.currentTime sim.currentStep).serializeAndSend env
        = sim.plugin.setTime sim.currentTime sim.currentStep := by
      simp [ParticleSenderPlugin.serializeAndSend, hskip]
    rw [hb, hsd]
    refine ⟨trivial, rfl, hcd, ?_, ?_⟩
    · rw [if_neg hc]; simp
    · rw [if_neg hc]; simp [htrace]

/-- The steps at which `run(n)` sends: the positive multiples of `dumpEvery`
among the `n` step values it goes through, starting at the current one. -/
theorem run_spec (env : Collaborators) (advance : float → float) :
    ∀ (n : Nat) (sim : Simulation),
      0 < sim.plugin.dumpEvery → 0 ≤ sim.currentStep →
      sim.plugin.channelData.length = sim.plugin.channelNames.length →
      (Simulation.run env advance n sim).sentAt
        = sim.sentAt ++ ((List.range n).map fun (i : Nat) => sim.currentStep + Int.ofNat i).filter
            (fun k => decide (k % sim.plugin.dumpEvery = 0 ∧ k ≠ 0))
      ∧ (dataSends (Simulation.run env advance n sim).plugin.trace).length
        = (dataSends sim.plugin.trace).length +
          (((List.range n).map fun (i : Nat) => sim.currentStep + Int.ofNat i).filter
            (fun k => decide (k % sim.plugin.dumpEvery = 0 ∧ k ≠ 0))).length := by
  intro n
  induction n with
  | zero => intro sim _ _ _; simp [Simulation.run]
  | succ n ih =>
      intro sim hd hs hcd
      obtain ⟨h1, h2, h3, h4, h5⟩ := step_spec env advance sim hd hs hcd
      obtain ⟨r1, r2⟩ := ih (Simulation.step env advance sim) (by rw [h2]; exact hd)
        (by rw [h1]; omega) h3
      have hshift : ((List.range n).map fun (i : Nat) =>
          (Simulation.step env advance sim).currentStep + Int.ofNat i)
          = (List.range n).map (fun (i : Nat) => sim.currentStep + Int.ofNat (i + 1)) := by
        rw [h1]
        apply List.map_congr_left
        intro i _
        simp only [Int.ofNat_eq_coe]
        push_cast; ring
      have hrange : ((List.range (n + 1)).map fun (i : Nat) => sim.currentStep + Int.ofNat i)
          = sim.currentStep ::
              (List.range n).map (fun (i : Nat) => sim.currentStep + Int.ofNat (i + 1)) := by
        rw [List.range_succ_eq_map]
        simp [List.map_map, Function.comp_def]
      simp only [Simulation.run]
      rw [r1, r2, h4, h5, h2, hshift, hrange]
      by_cases hc : sim.currentStep % sim.plugin.dumpEvery = 0 ∧ sim.currentStep ≠ 0
      · rw [if_pos hc, if_pos hc, List.filter_cons_of_pos (by simpa using hc)]
        refine ⟨by simp, ?_⟩
        simp only [List.length_cons]
        omega
      · rw [if_neg hc, if_neg hc, List.filter_cons_of_neg (by simpa using hc)]
        simp

theorem run_currentStep (env : Collaborators) (advance : float → float) :
    ∀ (n : Nat) (sim : Simulation),
      (Simulation.run env advance n sim).currentStep = sim.currentStep + Int.ofNat n := by
  intro n
  induction n with
  | zero => intro sim; simp [Simulation.run]
  | succ n ih =>
      intro sim
      simp only [Simulation.run]
      rw [ih]
      show sim.currentStep + 1 + Int.ofNat n = sim.currentStep + Int.ofNat (n + 1)
      simp only [Int.ofNat_eq_coe]
      push_cast; ring

/-- C6 as stated fails: with `dumpEvery = 2` and the step counter starting at 0,
four steps do not send two messages at steps 2 and 4. -/
theorem C6_counterexample_four_steps :
    ¬ ((Simulation.run Collaborators.sample advanceSample 4
          (Simulation.start ParticleSenderPlugin.sample ParticleVector.sample)).sentAt = [2, 4]
       ∧ (dataSends (Simulation.run Collaborators.sample advanceSample 4
          (Simulation.start ParticleSenderPlugin.sample ParticleVector.sample)).plugin.trace).length
         = 2) := by
  decide

/-- C6, amended: with one plugin configured with `dumpEvery = 2` and the step
counter starting at 0, running 4 steps (each step handing the clock to the
plugin, invoking `beforeForces` and `serializeAndSend`, then advancing the
clock) goes through the step values 0, 1, 2, 3 and sends exactly one
steady-state message, at step 2, and none at step 0; the clock then stands at 4,
and the message of step 4 is sent only when a fifth step is run. -/
theorem C6_four_steps_send_one_message (env : Collaborators) (advance : float → float)
    (pv : ParticleVector) (name pvName : String) (channelNames : List String)
    (channelTypes : List ChannelType) (tag : Int) :
    (Simulation.run env advance 4 (Simulation.start
        (ParticleSenderPlugin.new name pvName 2 channelNames channelTypes tag) pv)).sentAt = [2]
    ∧ (dataSends (Simulation.run env advance 4 (Simulation.start
        (ParticleSenderPlugin.new name pvName 2 channelNames channelTypes tag) pv)).plugin.trace).length
      = 1
    ∧ (Simulation.run env advance 4 (Simulation.start
        (ParticleSenderPlugin.new name pvName 2 channelNames channelTypes tag) pv)).currentStep = 4
    ∧ (Simulation.run env advance 5 (Simulation.start
        (ParticleSenderPlugin.new name pvName 2 channelNames channelTypes tag) pv)).sentAt = [2, 4]
    ∧ (dataSends (Simulation.run env advance 5 (Simulation.start
        (ParticleSenderPlugin.new name pvName 2 channelNames channelTypes tag) pv)).plugin.trace).length
      = 2 := by
  have hd : 0 < (Simulation.start
      (ParticleSenderPlugin.new name pvName 2 channelNames channelTypes tag) pv).plugin.dumpEvery := by
    show (0 : Int) < 2
    decide
  have hs : 0 ≤ (Simulation.start
      (ParticleSenderPlugin.new name pvName 2 channelNames channelTypes tag) pv).currentStep := by
    show (0 : Int) ≤ 0
    decide
  have hcd : (Simulation.start
      (ParticleSenderPlugin.new name pvName 2 channelNames channelTypes tag) pv).plugin.channelData.length
      = (Simulation.start
      (ParticleSenderPlugin.new name pvName 2 channelNames channelTypes tag) pv).plugin.channelNames.length := by
    simp [Simulation.start, ParticleSenderPlugin.new]
  obtain ⟨a4, b4⟩ := run_spec env advance 4 _ hd hs hcd
  obtain ⟨a5, b5⟩ := run_spec env advance 5 _ hd hs hcd
  have hf4 : ((List.range 4).map fun (i : Nat) => (0 : Int) + Int.ofNat i).filter
      (fun k => decide (k % 2 = 0 ∧ k ≠ 0)) = [2] := by decide
  have hf5 : ((List.range 5).map fun (i : Nat) => (0 : Int) + Int.ofNat i).filter
      (fun k => decide (k % 2 = 0 ∧ k ≠ 0)) = [2, 4] := by decide
  refine ⟨?_, ?_, ?_, ?_, ?_⟩
  · rw [a4]
    show [] ++ (((List.range 4).map fun (i : Nat) => (0 : Int) + Int.ofNat i).filter
      (fun k => decide (k % 2 = 0 ∧ k ≠ 0))) = [2]
    rw [hf4]; rfl
  · rw [b4]
    show 0 + (((List.range 4).map fun (i : Nat) => (0 : Int) + Int.ofNat i).filter
      (fun k => decide (k % 2 = 0 ∧ k ≠ 0))).length = 1
    rw [hf4]; rfl
  · rw [run_currentStep]; rfl
  · rw [a5]
    show [] ++ (((List.range 5).map fun (i : Nat) => (0 : Int) + Int.ofNat i).filter
      (fun k => decide (k % 2 = 0 ∧ k ≠ 0))) = [2, 4]
    rw [hf5]; rfl
  · rw [b5]
    show 0 + (((List.range 5).map fun (i : Nat) => (0 : Int) + Int.ofNat i).filter
      (fun k => decide (k % 2 = 0 ∧ k ≠ 0))).length = 2
    rw [hf5]; rfl

/-! ## Unpacking particles -/

theorem resize_length {α : Type} (xs : List α) (n : Nat) (fill : α) :
    (resize xs n fill).length = n := by
  simp only [resize, List.length_append, List.length_take, List.length_replicate]
  omega

/-- The first `k` rounds of the loop of `unpack_particles`, on arrays of length
`3 * n`: every store is in bounds and the first `k` particles are in place. -/
theorem unpackLoop_spec (particles : List Particle) (pos0 vel0 : List float)
    (hp : pos0.length = 3 * particles.length) (hv : vel0.length = 3 * particles.length) :
    ∀ k : Nat, k ≤ particles.length →
      ∃ pos vel, (List.range k).foldlM (unpackStep particles) (pos0, vel0) = some (pos, vel)
        ∧ pos.length = 3 * particles.length ∧ vel.length = 3 * particles.length
        ∧ ∀ (i : Nat) (p : Particle), i < k → particles[i]? = some p →
            pos[3 * i]? = some p.r.x ∧ pos[3 * i + 1]? = some p.r.y
            ∧ pos[3 * i + 2]? = some p.r.z
            ∧ vel[3 * i]? = some p.u.x ∧ vel[3 * i + 1]? = some p.u.y
            ∧ vel[3 * i + 2]? = some p.u.z := by
  intro k
  induction k with
  | zero =>
      intro _
      exact ⟨pos0, vel0, by simp, hp, hv, by intro i p hi; omega⟩
  | succ k ih =>
      intro hk
      obtain ⟨pos, vel, hrun, hpl, hvl, hprev⟩ := ih (by omega)
      have hkp : particles[k]? = some particles[k] := List.getElem?_eq_getElem (by omega)
      have hstep : unpackStep particles (pos, vel) k
          = some (((pos.set (3 * k) particles[k].r.x).set (3 * k + 1) particles[k].r.y).set
                    (3 * k + 2) particles[k].r.z,
                  ((vel.set (3 * k) particles[k].u.x).set (3 * k + 1) particles[k].u.y).set
                    (3 * k + 2) particles[k].u.z) := by
        simp [unpackStep, store, hkp, hpl, hvl, List.length_set,
          show 3 * k < 3 * particles.length by omega,
          show 3 * k + 1 < 3 * particles.length by omega,
          show 3 * k + 2 < 3 * particles.length by omega]
      refine ⟨((pos.set (3 * k) particles[k].r.x).set (3 * k + 1) particles[k].r.y).set
                    (3 * k + 2) particles[k].r.z,
              ((vel.set (3 * k) particles[k].u.x).set (3 * k + 1) particles[k].u.y).set
                    (3 * k + 2) particles[k].u.z, ?_, ?_, ?_, ?_⟩
      · rw [List.range_succ, List.foldlM_append, hrun]
        simp [hstep]
      · simp [List.length_set, hpl]
      · simp [List.length_set, hvl]
      · intro i p hi hpi
        by_cases hik : i = k
        · subst hik
          rw [hkp] at hpi
          cases hpi
          simp [List.getElem?_set, List.length_set, hpl, hvl,
            show 3 * i < 3 * particles.length by omega,
            show 3 * i + 1 < 3 * particles.length by omega,
            show 3 * i + 2 < 3 * particles.length by omega]
        · obtain ⟨q1, q2, q3, q4, q5, q6⟩ := hprev i p (by omega) hpi
          have hne : ∀ a b : Nat, a < 3 → b < 3 → ¬ (3 * k + a = 3 * i + b) := by
            intro a b ha hb; omega
          have e00 := hne 0 0 (by omega) (by omega)
          have e01 := hne 0 1 (by omega) (by omega)
          have e02 := hne 0 2 (by omega) (by omega)
          have e10 := hne 1 0 (by omega) (by omega)
          have e11 := hne 1 1 (by omega) (by omega)
          have e12 := hne 1 2 (by omega) (by omega)
          have e20 := hne 2 0 (by omega) (by omega)
          have e21 := hne 2 1 (by omega) (by omega)
          have e22 := hne 2 2 (by omega) (by omega)
          simp only [Nat.add_zero] at e00 e01 e02 e10 e20
          simp only [List.getElem?_set, e00, e01, e02, e10, e11, e12, e20, e21, e22, if_false]
          exact ⟨q1, q2, q3, q4, q5, q6⟩

/-- C10: for every list of particles and any previous content of `pos` and
`vel`, `unpack_particles` performs every store in bounds and leaves both arrays
with length exactly three times the number of particles, with the x, y, z
position of particle `i` at `pos[3i]`, `pos[3i+1]`, `pos[3i+2]` and its x, y, z
velocity at the same places of `vel`; for no particles both arrays are empty. -/
theorem C10_unpack_particles_layout (particles : List Particle) (pos vel : List float) :
    ∃ pos2 vel2, unpack_particles particles pos vel = some (pos2, vel2)
      ∧ pos2.length = 3 * particles.length ∧ vel2.length = 3 * particles.length
      ∧ (∀ (i : Nat) (p : Particle), particles[i]? = some p →
          pos2[3 * i]? = some p.r.x ∧ pos2[3 * i + 1]? = some p.r.y
          ∧ pos2[3 * i + 2]? = some p.r.z
          ∧ vel2[3 * i]? = some p.u.x ∧ vel2[3 * i + 1]? = some p.u.y
          ∧ vel2[3 * i + 2]? = some p.u.z)
      ∧ (particles = [] → pos2 = [] ∧ vel2 = []) := by
  obtain ⟨pos2, vel2, hrun, hpl, hvl, hall⟩ :=
    unpackLoop_spec particles (resize pos (3 * particles.length) float.zero)
      (resize vel (3 * particles.length) float.zero) (resize_length _ _ _) (resize_length _ _ _)
      particles.length (Nat.le_refl _)
  refine ⟨pos2, vel2, hrun, hpl, hvl, ?_, ?_⟩
  · intro i p hpi
    have hi : i < particles.length := by
      by_contra hcon
      rw [List.getElem?_eq_none (by omega)] at hpi
      cases hpi
    exact hall i p hi hpi
  · intro hnil
    subst hnil
    exact ⟨List.eq_nil_of_length_eq_zero (by simpa using hpl),
      List.eq_nil_of_length_eq_zero (by simpa using hvl)⟩

/-! ## The time handed to the persistence sink -/

theorem writtenTimes_append (l1 l2 : List PostEvent) :
    writtenTimes (l1 ++ l2) = writtenTimes l1 ++ writtenTimes l2 := by
  induction l1 with
  | nil => simp [writtenTimes]
  | cons a as ih => cases a <;> simp [writtenTimes, ih]

/-- The value `_recvAndUnpack` yields is never the time it deserialized: the
function has no `return`. -/
theorem recvAndUnpack_returns_nothing (env : Collaborators) (d d1 : ParticleDumperPlugin)
    (t : Option float) (h : d._recvAndUnpack env = some (d1, t)) :
    t = none ∧ d1.log = d.log := by
  unfold ParticleDumperPlugin._recvAndUnpack at h
  simp only [bind, Option.bind_eq_some, pure, Option.some.injEq, Prod.mk.injEq] at h
  obtain ⟨_, _, _, _, _, _, h1, h2⟩ := h
  exact ⟨h2.symm, by rw [← h1]⟩

/-- Whatever payload is deserialized, `deserialize` hands no determinate time to
`XDMF::write`. -/
theorem deserialize_writes_no_time (env : Collaborators) (d d2 : ParticleDumperPlugin)
    (h : d.deserialize env = some d2) :
    writtenTimes d2.log = writtenTimes d.log ++ [none] := by
  unfold ParticleDumperPlugin.deserialize at h
  simp only [bind, Option.bind_eq_some, pure, Option.some.injEq] at h
  obtain ⟨⟨d1, t⟩, hr, h2⟩ := h
  obtain ⟨ht, hlog⟩ := recvAndUnpack_returns_nothing env d d1 t hr
  subst ht
  rw [← h2]
  simp [writtenTimes_append, writtenTimes, hlog]

/-- C9: for a received payload whose deserialized time is 9, the receiver after
its handshake unpacks, writes frame 0, and passes `XDMF::write` a time that is
not the deserialized one: `_recvAndUnpack` ends without returning `t`. -/
theorem C9_written_time_is_not_the_deserialized_time :
    (Collaborators.sample.deserializeDump ParticleDumperPlugin.sample.data).1 = ⟨9⟩
    ∧ (ParticleDumperPlugin.sample.deserialize Collaborators.sample).map
        (fun d2 => writtenTimes d2.log) = some [none]
    ∧ (ParticleDumperPlugin.sample.deserialize Collaborators.sample).map
        (fun d2 => writtenTimes d2.log) ≠ some [some ⟨9⟩] := by
  decide

end YMeRo
